import Mathlib

/-!
Verification development for the `code_splitter` repository
(`splitter_core.py`).

The Python source is shallowly embedded as follows.

* Python strings are Lean `String`s; the Python string operations used by
  the splitter (`strip`, `startswith`, `endswith`, `in`, `lower`, `count`,
  slicing, `split`, `replace`) are modelled as executable functions on the
  underlying character list (`String.data`), matching Python's
  character-sequence semantics.
* The parsed module (`ast.Module`) is a list of top-level statements
  (`TopStmt`) together with the source line array.  Statement subtrees are
  modelled by `PyNode` trees carrying the identifiers read (`ast.Load`
  context) or written (`ast.Store` context), which is all the information
  `UsedNamesCollector` consumes.
* File emission (`write_split_files`) is modelled as the ordered list of
  file writes it performs; each write records the output path, the text
  content, and the names of the top-level declarations whose source span
  is embedded in that content.  Later writes to the same path overwrite
  earlier ones, like the file system.
* The import-validation stage (`_validate_imports`) is modelled as a state
  machine over the process-wide state it mutates (`sys.path`,
  `sys.modules`), with an oracle supplying the outcome of each fallible
  dynamic-loading call.  Each `exec_module` call both registers the
  explicit `base.mod` entry of line 458 (for module files) and, because it
  executes the loaded file's top-level code, registers that file's
  transitive absolute imports in `sys.modules`; the oracle carries those
  side-effect registrations per load.
-/

/-! ### Python string primitives (character-list semantics) -/

/-- Python `s.startswith(p)`: `p` is a prefix of `s` as a character sequence. -/
def pyStartsWith (s p : String) : Bool := p.data.isPrefixOf s.data

/-- Python `s.endswith(p)`: `p` is a suffix of `s` as a character sequence. -/
def pyEndsWith (s p : String) : Bool := p.data.isSuffixOf s.data

/-- Helper for Python `p in s`: does `pat` occur as a contiguous sublist? -/
def subOccurs (pat : List Char) : List Char → Bool
  | [] => pat.isPrefixOf []
  | c :: rest => pat.isPrefixOf (c :: rest) || subOccurs pat rest

/-- Python `p in s` (substring containment). -/
def pyContains (s p : String) : Bool := subOccurs p.data s.data

/-- Python `s.strip()`: drop whitespace from both ends. -/
def pyStrip (s : String) : String :=
  ⟨((s.data.dropWhile Char.isWhitespace).reverse.dropWhile Char.isWhitespace).reverse⟩

/-- Python `s.lower()`. -/
def pyLower (s : String) : String := ⟨s.data.map Char.toLower⟩

/-- Python `s[:n]` (take the first `n` characters). -/
def pyTake (s : String) (n : Nat) : String := ⟨s.data.take n⟩

/-- Helper for Python `s.count(pat)`: count non-overlapping occurrences
left to right. -/
def countSubAux (pat : List Char) : List Char → Nat
  | [] => 0
  | c :: rest =>
    if pat.isPrefixOf (c :: rest) then
      1 + countSubAux pat (rest.drop (pat.length - 1))
    else countSubAux pat rest
termination_by l => l.length
decreasing_by
  · simp only [List.length_drop, List.length_cons]; omega
  · simp only [List.length_cons]; omega

/-- Python `s.count(pat)` for non-empty `pat`. -/
def pyCount (s pat : String) : Nat := countSubAux pat.data s.data

/-- Helper for Python `s.replace(pat, rep)`: replace every non-overlapping
occurrence left to right. -/
def replaceSubAux (pat rep : List Char) : List Char → List Char
  | [] => []
  | c :: rest =>
    if pat.isPrefixOf (c :: rest) then
      rep ++ replaceSubAux pat rep (rest.drop (pat.length - 1))
    else c :: replaceSubAux pat rep rest
termination_by l => l.length
decreasing_by
  · simp only [List.length_drop, List.length_cons]; omega
  · simp only [List.length_cons]; omega

/-- Python `s.split(sep)` for a single-character separator. -/
def pySplitChar (s : String) (sep : Char) : List String :=
  (s.data.splitOn sep).map (fun l => ⟨l⟩)

/-- First-occurrence deduplication; models iterating a Python `set` built
by successive insertions (claims below only use it up to membership). -/
def dedupFirst (l : List String) : List String :=
  l.foldl (fun acc x => if x ∈ acc then acc else acc ++ [x]) []

/-! ### The parsed module -/

/-- Statement subtree carrying the identifier occurrences that
`UsedNamesCollector` visits: `nameLoad` is an `ast.Name` in `Load`
context, `nameStore` one in `Store` context. -/
inductive PyNode where
  | nameLoad (id : String)
  | nameStore (id : String)
  | node (children : List PyNode)

mutual
/-- `UsedNamesCollector`: collect every identifier read (`Load` context)
anywhere in the subtree (`visit_Name` + `generic_visit`). -/
def usedNames : PyNode → List String
  | .nameLoad id => [id]
  | .nameStore _ => []
  | .node cs => usedNamesList cs
/-- `usedNames` mapped over a child list. -/
def usedNamesList : List PyNode → List String
  | [] => []
  | c :: rest => usedNames c ++ usedNamesList rest
end

/-- A top-level statement of the parsed module.  `classDef`/`funcDef`
carry the name, the first decorator line (if any), `lineno`,
`end_lineno`, and the statement subtree.  `asyncFuncDef` models
`ast.AsyncFunctionDef`, which is a distinct node class from
`ast.FunctionDef`.  `importStmt` carries the unparsed text of an
`ast.Import`/`ast.ImportFrom`.  `exprConstStr` is an expression statement
whose value is a string constant (a docstring candidate).  `otherStmt` is
any other top-level statement. -/
inductive TopStmt where
  | classDef (name : String) (decoLine : Option Nat) (lineno : Nat)
      (endLineno : Option Nat) (body : PyNode)
  | funcDef (name : String) (decoLine : Option Nat) (lineno : Nat)
      (endLineno : Option Nat) (body : PyNode)
  | asyncFuncDef (name : String) (decoLine : Option Nat) (lineno : Nat)
      (endLineno : Option Nat) (body : PyNode)
  | importStmt (text : String)
  | exprConstStr (s : String)
  | otherStmt (body : PyNode)

/-- A parsed module: top-level statement list plus the source line array
(`code.splitlines()`). -/
structure PyModule where
  body : List TopStmt
  lines : List String

/-- A source file given to `parse_script`: either it parses to a module or
raises `SyntaxError`. -/
inductive PySource where
  | valid (m : PyModule)
  | invalid

/-- `parse_script`: returns the parsed module, or `None` on a syntax
error. -/
def parse_script : PySource → Option PyModule
  | .valid m => some m
  | .invalid => none

/-! ### Declaration extraction (`find_top_level_defs` and friends) -/

/-- One entry `(name, start_line, end_lineno)` as produced by
`find_top_level_defs`. -/
abbrev DefEntry := String × Nat × Option Nat

/-- Start line of a declaration: `min(lineno, decorator_list[0].lineno)`
when decorators are present. -/
def defStart (decoLine : Option Nat) (lineno : Nat) : Nat :=
  match decoLine with
  | some d => Nat.min lineno d
  | none => lineno

/-- `find_top_level_defs`: the `(classes, functions)` entry lists.  Only
`ast.ClassDef` and `ast.FunctionDef` statements are returned;
`ast.AsyncFunctionDef` and everything else are ignored. -/
def find_top_level_defs (body : List TopStmt) : List DefEntry × List DefEntry :=
  (body.filterMap (fun s => match s with
    | .classDef n d l e _ => some (n, defStart d l, e)
    | _ => none),
   body.filterMap (fun s => match s with
    | .funcDef n d l e _ => some (n, defStart d l, e)
    | _ => none))

/-- `get_occupied_lines`, as a membership test: line `i` lies inside the
span of some entry whose end line is known. -/
def occupiesLine (defs : List DefEntry) (i : Nat) : Bool :=
  defs.any (fun d => match d.2.2 with
    | some e => decide (d.2.1 ≤ i ∧ i ≤ e)
    | none => false)

/-- `extract_code(lines, start, end)`: `"\n".join(lines[start-1:end])`. -/
def extract_code (lines : List String) (start e : Nat) : String :=
  String.intercalate "\n" ((lines.drop (start - 1)).take (e + 1 - start))

/-- `get_imports`: the unparsed text of every top-level import statement,
in order. -/
def get_imports (body : List TopStmt) : List String :=
  body.filterMap (fun s => match s with
    | .importStmt t => some t
    | _ => none)

/-! ### Dependency analysis (`analyze_dependencies`) -/

/-- The two buckets computed for one class statement: used names that are
other top-level class names, and used names that are top-level function
names. -/
def classBuckets (classNames functionNames : List String) (cname : String)
    (b : PyNode) : List String × List String :=
  let used := dedupFirst (usedNames b)
  (used.filter (fun n => decide (n ∈ classNames) && decide (n ≠ cname)),
   used.filter (fun n => decide (n ∈ functionNames)))

/-- The subtree of the last top-level `classDef` with the given name
(`class_used` is a dict keyed by name, so a later duplicate wins). -/
def lastClassBody (body : List TopStmt) (cname : String) : Option PyNode :=
  (body.filterMap (fun s => match s with
    | .classDef n _ _ _ b => if n = cname then some b else none
    | _ => none)).getLast?

/-- `class_used[cname]` from `analyze_dependencies`. -/
def classUsedLookup (body : List TopStmt) (classNames functionNames : List String)
    (cname : String) : List String × List String :=
  match lastClassBody body cname with
  | some b => classBuckets classNames functionNames cname b
  | none => ([], [])

/-- `func_used_classes`: every top-level class name read inside any
top-level function body. -/
def funcUsedClasses (body : List TopStmt) (classNames : List String) : List String :=
  dedupFirst (body.flatMap (fun s => match s with
    | .funcDef _ _ _ _ b => (usedNames b).filter (fun n => decide (n ∈ classNames))
    | _ => []))

/-- `top_used`: names read by top-level statements that are not class
definitions, function definitions, or imports (async function definitions
and other statements are visited). -/
def topUsed (body : List TopStmt) : List String :=
  dedupFirst (body.flatMap (fun s => match s with
    | .classDef _ _ _ _ _ => []
    | .funcDef _ _ _ _ _ => []
    | .importStmt _ => []
    | .asyncFuncDef _ _ _ _ b => usedNames b
    | .exprConstStr _ => []
    | .otherStmt b => usedNames b))

/-! ### Grouping configuration -/

/-- A parsed grouping config: the `modules` mapping as an association list
`(group_name, classes, functions)`; JSON object keys are unique. -/
structure GroupConfig where
  modules : List (String × List String × List String)

/-- Convenience projections over a parsed module. -/
def classesOf (m : PyModule) : List DefEntry := (find_top_level_defs m.body).1

/-- Top-level function entries of a module. -/
def functionsOf (m : PyModule) : List DefEntry := (find_top_level_defs m.body).2

/-- Top-level class names of a module. -/
def classNamesOf (m : PyModule) : List String := (classesOf m).map (·.1)

/-- Top-level function names of a module. -/
def functionNamesOf (m : PyModule) : List String := (functionsOf m).map (·.1)

/-! ### The residual file (`create_shrunk_original`) -/

/-- `_extract_module_docstring`: when the first statement of the parsed
module is a string-constant expression, re-render its value wrapped in
triple quotes. -/
def extract_module_docstring (body : List TopStmt) : Option String :=
  match body.head? with
  | some (.exprConstStr s) => some ("\"\"\"" ++ s ++ "\"\"\"")
  | _ => none

/-- The sets of class and function names that will be split out: every
name mentioned by the config in config mode, every top-level name in
default mode. -/
def splitSets (cfg : Option GroupConfig) (classNames functionNames : List String) :
    List String × List String :=
  match cfg with
  | some c => (c.modules.flatMap (fun mdl => mdl.2.1),
               c.modules.flatMap (fun mdl => mdl.2.2))
  | none => (classNames, functionNames)

/-- The minimal residual file built when no declaration remains
(`create_shrunk_original`, lines 148-181): docstring or synthesized
comment block, original imports, then re-export import lines. -/
def shrunkMinimal (body : List TopStmt) (imports : List String)
    (cfg : Option GroupConfig) (classNames functionNames : List String) : String :=
  let headParts : List String :=
    match extract_module_docstring body with
    | some ds => [ds, ""]
    | none => ["\"\"\"",
        "Main module - classes have been split into separate files.",
        "Import from the individual modules or use the __init__.py for convenience.",
        "\"\"\"", ""]
  let importParts : List String := if imports.isEmpty then [] else imports ++ [""]
  let reexportParts : List String :=
    match cfg with
    | some c => c.modules.map (fun mdl => "from ." ++ mdl.1 ++ " import *")
    | none =>
        classNames.map (fun cn => "from ." ++ cn ++ " import " ++ cn) ++
          (if functionNames.isEmpty then []
           else ["from .functions import " ++ String.intercalate ", " functionNames])
  String.intercalate "\n" (headParts ++ importParts ++ reexportParts) ++ "\n"

/-- State of the module-docstring filter loop in `create_shrunk_original`
(lines 187-214). -/
structure DocFilterState where
  inDoc : Bool
  quotes : Option String
  acc : List String

/-- One iteration of the docstring filter loop over a non-occupied source
line. -/
def shrunkFilterLine (st : DocFilterState) (line : String) : DocFilterState :=
  let stripped := pyStrip line
  if !st.inDoc && (pyStartsWith stripped "\"\"\"" || pyStartsWith stripped "'''") then
    let q := pyTake stripped 3
    if pyCount stripped q = 2 then { st with quotes := some q }
    else { st with inDoc := true, quotes := some q }
  else if st.inDoc && st.quotes.isSome && pyEndsWith stripped (st.quotes.getD "") then
    { st with inDoc := false }
  else if st.inDoc then st
  else if st.acc.isEmpty && stripped = "" then st
  else { st with acc := st.acc ++ [line] }

/-- The `top_level_code` list of `create_shrunk_original`: non-occupied
source lines run through the docstring filter. -/
def shrunkTopLevel (lines : List String) (occ : Nat → Bool) : List String :=
  ((List.range lines.length).foldl (fun st j =>
      if occ (j + 1) then st
      else match lines.get? j with
        | some line => shrunkFilterLine st line
        | none => st)
    { inDoc := false, quotes := none, acc := [] }).acc

/-- The `while "\n\n\n" in result` collapse loop; each replacement pass
strictly shrinks the text, so a fuel of the initial length suffices. -/
def collapseLoop : Nat → List Char → List Char
  | 0, l => l
  | fuel + 1, l =>
    if subOccurs ['\n', '\n', '\n'] l then
      collapseLoop fuel (replaceSubAux ['\n', '\n', '\n'] ['\n', '\n'] l)
    else l

/-- Collapse runs of three or more newlines down to two. -/
def collapseNewlines (s : String) : String := ⟨collapseLoop s.data.length s.data⟩

/-- The residual file built when some declarations remain
(`create_shrunk_original`, lines 183-254). -/
def shrunkRest (lines imports : List String) (allDefs : List DefEntry)
    (remainingC remainingF : List DefEntry) : String :=
  let occ := occupiesLine allDefs
  let importParts : List String := if imports.isEmpty then [] else imports ++ [""]
  let classParts : List String := remainingC.flatMap (fun d => match d.2.2 with
    | some e => [extract_code lines d.2.1 e, ""]
    | none => [])
  let funcParts : List String := remainingF.flatMap (fun d => match d.2.2 with
    | some e => [extract_code lines d.2.1 e, ""]
    | none => [])
  let tl := shrunkTopLevel lines occ
  let filteredTL := tl.foldl (fun acc line =>
      if pyStartsWith (pyStrip line) "\"\"\"" && acc.isEmpty then acc
      else acc ++ [line]) []
  let result := collapseNewlines
    (String.intercalate "\n" (importParts ++ classParts ++ funcParts ++ filteredTL))
  if pyStrip result ≠ "" then pyStrip result ++ "\n" else ""

/-- `create_shrunk_original`: the full text of the residual file. -/
def create_shrunk_original (body : List TopStmt) (lines imports : List String)
    (classes functions : List DefEntry) (cfg : Option GroupConfig)
    (classNames functionNames : List String) : String :=
  let s := splitSets cfg classNames functionNames
  let remainingC := classes.filter (fun d => decide (d.1 ∉ s.1))
  let remainingF := functions.filter (fun d => decide (d.1 ∉ s.2))
  if remainingC.isEmpty && remainingF.isEmpty then
    shrunkMinimal body imports cfg classNames functionNames
  else
    shrunkRest lines imports (classes ++ functions) remainingC remainingF

/-- The declaration names whose source span `create_shrunk_original`
embeds in the residual file (the `extract_code` calls of lines 225-234):
empty in the minimal branch, otherwise every remaining declaration whose
end line is known. -/
def residual_members (classes functions : List DefEntry) (cfg : Option GroupConfig)
    (classNames functionNames : List String) : List String :=
  let s := splitSets cfg classNames functionNames
  let remainingC := classes.filter (fun d => decide (d.1 ∉ s.1))
  let remainingF := functions.filter (fun d => decide (d.1 ∉ s.2))
  if remainingC.isEmpty && remainingF.isEmpty then []
  else (remainingC ++ remainingF).filterMap
    (fun d => if d.2.2.isSome then some d.1 else none)

/-! ### Unit file contents (`write_split_files` emission) -/

/-- The synthesized relative-import lines of a class unit: one
`from .C import C` per referenced class, then one collective
`from .functions import ...` line when any function is referenced
(lines 816-819). -/
def depImportLines (bucketC bucketF : List String) : List String :=
  bucketC.map (fun uc => "from ." ++ uc ++ " import " ++ uc) ++
    (if bucketF.isEmpty then []
     else ["from .functions import " ++ String.intercalate ", " bucketF])

/-- The content of one default-mode class unit file (lines 813-820). -/
def class_unit_content (imports lines : List String) (bucketC bucketF : List String)
    (start e : Nat) : String :=
  String.intercalate "\n" imports ++ "\n" ++
    String.join ((depImportLines bucketC bucketF).map (fun l => l ++ "\n")) ++
    "\n" ++ extract_code lines start e

/-- The content of the shared `functions.py` unit (lines 824-834). -/
def functions_unit_content (imports lines : List String) (funcUsed : List String)
    (functions : List DefEntry) : String :=
  String.intercalate "\n" imports ++ "\n" ++
    String.join (funcUsed.map (fun uc => "from ." ++ uc ++ " import " ++ uc ++ "\n")) ++
    "\n" ++
    String.join (functions.filterMap (fun d => match d.2.2 with
      | some e => some (extract_code lines d.2.1 e ++ "\n\n")
      | none => none))

/-- The content of one config-mode group module file (lines 789-806): for
each configured name present in the source, the first matching entry with
a known end line is embedded. -/
def module_unit_content (imports lines : List String)
    (classes functions : List DefEntry) (classNames functionNames : List String)
    (mcls mfns : List String) : String :=
  String.intercalate "\n" imports ++ "\n" ++
    String.join (mcls.map (fun cn =>
      if decide (cn ∈ classNames) then
        match classes.find? (fun d => d.1 == cn && d.2.2.isSome) with
        | some d => extract_code lines d.2.1 (d.2.2.getD 0) ++ "\n\n"
        | none => ""
      else "")) ++
    String.join (mfns.map (fun fn =>
      if decide (fn ∈ functionNames) then
        match functions.find? (fun d => d.1 == fn && d.2.2.isSome) with
        | some d => extract_code lines d.2.1 (d.2.2.getD 0) ++ "\n\n"
        | none => ""
      else ""))

/-- The declaration names embedded in one config-mode group module file. -/
def module_unit_members (classes functions : List DefEntry)
    (classNames functionNames : List String) (mcls mfns : List String) : List String :=
  mcls.filter (fun cn => decide (cn ∈ classNames) &&
      (classes.find? (fun d => d.1 == cn && d.2.2.isSome)).isSome) ++
    mfns.filter (fun fn => decide (fn ∈ functionNames) &&
      (functions.find? (fun d => d.1 == fn && d.2.2.isSome)).isSome)

/-- The content of `main.py` for leftover top-level statements
(lines 836-846). -/
def main_unit_content (imports : List String) (topUsedC topUsedF : List String)
    (topLevelCode : List String) : String :=
  String.intercalate "\n" imports ++ "\n" ++
    String.join (topUsedC.map (fun uc => "from ." ++ uc ++ " import " ++ uc ++ "\n")) ++
    (if topUsedF.isEmpty then ""
     else "from .functions import " ++ String.intercalate ", " topUsedF ++ "\n") ++
    "\n" ++ String.intercalate "\n" topLevelCode

/-- The content of the package initializer `__init__.py` (lines 848-858). -/
def init_content (cfg : Option GroupConfig) (classNames functionNames : List String) :
    String :=
  match cfg with
  | some c => String.join (c.modules.map (fun mdl => "from ." ++ mdl.1 ++ " import *\n"))
  | none =>
      String.join (classNames.map (fun cn => "from ." ++ cn ++ " import " ++ cn ++ "\n")) ++
        (if functionNames.isEmpty then ""
         else "from .functions import " ++ String.intercalate ", " functionNames ++ "\n")

/-- The declaration names the default-mode `__init__.py` re-exports: the
loop of lines 854-857 iterates exactly over `class_names` and
`function_names`. -/
def init_export_names (classNames functionNames : List String) : List String :=
  classNames ++ functionNames

/-- `all_exports = class_names + function_names` in
`create_interface_file` (line 741). -/
def interface_export_names (classNames functionNames : List String) : List String :=
  classNames ++ functionNames

/-- `create_interface_file`: the re-export file written at the original
location (lines 703-748). -/
def create_interface_file (base : String) (classNames functionNames : List String)
    (cfg : Option GroupConfig) : String :=
  let headParts : List String := ["\"\"\"",
    "Interface module for " ++ base ++ ".", "",
    "This file provides a clean interface to all classes and functions",
    "that were split into separate modules. Import from this file",
    "to maintain compatibility with existing code.", "\"\"\"", ""]
  let importParts : List String :=
    match cfg with
    | some c => c.modules.filterMap (fun mdl =>
        if mdl.2.1.isEmpty && mdl.2.2.isEmpty then none
        else some ("from ." ++ base ++ "." ++ mdl.1 ++ " import " ++
          String.intercalate ", " (mdl.2.1 ++ mdl.2.2)))
    | none =>
        classNames.map (fun cn => "from ." ++ base ++ "." ++ cn ++ " import " ++ cn) ++
          (if functionNames.isEmpty then []
           else ["from ." ++ base ++ ".functions import " ++
             String.intercalate ", " functionNames])
  let allExports := interface_export_names classNames functionNames
  let exportParts : List String :=
    if allExports.isEmpty then []
    else ["__all__ = ["] ++ allExports.map (fun ex => "    \"" ++ ex ++ "\",") ++ ["]"]
  String.intercalate "\n" (headParts ++ importParts ++ [""] ++ exportParts) ++ "\n"

/-! ### The emission plan of `write_split_files` -/

/-- An output path: inside the generated package folder
(`output_dir/<base>/<name>.py`) or directly under the output directory
(`output_dir/<name>.py`). -/
inductive OutPath where
  | inFolder (name : String)
  | atRoot (name : String)
deriving DecidableEq

/-- One file write performed by `write_split_files`: target path, text
content, the top-level declaration names whose source span the content
embeds, and whether the file is a partition unit (a class unit, the
shared functions unit, or a config group module). -/
structure FileWrite where
  path : OutPath
  members : List String
  content : String
  isUnit : Bool

/-- `top_level_code` as computed in `write_split_files` (line 765): every
source line not occupied by a class or function span. -/
def top_level_code (m : PyModule) : List String :=
  (List.range m.lines.length).filterMap (fun j =>
    if occupiesLine (classesOf m ++ functionsOf m) (j + 1) then none
    else m.lines.get? j)

/-- The residual-file write (lines 781-785). -/
def residual_write (m : PyModule) (base : String) (cfg : Option GroupConfig) : FileWrite :=
  { path := .inFolder base,
    members := residual_members (classesOf m) (functionsOf m) cfg (classNamesOf m)
      (functionNamesOf m),
    content := create_shrunk_original m.body m.lines (get_imports m.body) (classesOf m)
      (functionsOf m) cfg (classNamesOf m) (functionNamesOf m),
    isUnit := false }

/-- The default-mode per-class unit writes (lines 810-822); entries
without an end line are skipped. -/
def class_unit_writes (m : PyModule) : List FileWrite :=
  (classesOf m).filterMap (fun d => match d.2.2 with
    | none => none
    | some e =>
      some { path := .inFolder d.1, members := [d.1],
             content := class_unit_content (get_imports m.body) m.lines
               (classUsedLookup m.body (classNamesOf m) (functionNamesOf m) d.1).1
               (classUsedLookup m.body (classNamesOf m) (functionNamesOf m) d.1).2
               d.2.1 e,
             isUnit := true })

/-- The shared functions-unit write (lines 824-834). -/
def functions_unit_write (m : PyModule) : FileWrite :=
  { path := .inFolder "functions",
    members := (functionsOf m).filterMap (fun d => if d.2.2.isSome then some d.1 else none),
    content := functions_unit_content (get_imports m.body) m.lines
      (funcUsedClasses m.body (classNamesOf m)) (functionsOf m),
    isUnit := true }

/-- One config-mode group module write (lines 789-807). -/
def module_write (m : PyModule) (mdl : String × List String × List String) : FileWrite :=
  { path := .inFolder mdl.1,
    members := module_unit_members (classesOf m) (functionsOf m) (classNamesOf m)
      (functionNamesOf m) mdl.2.1 mdl.2.2,
    content := module_unit_content (get_imports m.body) m.lines (classesOf m)
      (functionsOf m) (classNamesOf m) (functionNamesOf m) mdl.2.1 mdl.2.2,
    isUnit := true }

/-- The partition-unit writes: one per class plus the shared functions
file (written only when the source has functions) in default mode, one
per config group in config mode. -/
def unit_writes (m : PyModule) (cfg : Option GroupConfig) : List FileWrite :=
  match cfg with
  | some c => c.modules.map (module_write m)
  | none =>
      class_unit_writes m ++
        (if (functionsOf m).isEmpty then [] else [functions_unit_write m])

/-- The `main.py` write for leftover top-level statements, performed only
when any remain (lines 836-846). -/
def main_writes (m : PyModule) : List FileWrite :=
  if (top_level_code m).isEmpty then []
  else [{ path := .inFolder "main", members := [],
          content := main_unit_content (get_imports m.body)
            ((topUsed m.body).filter (fun n => decide (n ∈ classNamesOf m)))
            ((topUsed m.body).filter (fun n => decide (n ∈ functionNamesOf m)))
            (top_level_code m),
          isUnit := false }]

/-- The package-initializer write (lines 848-859). -/
def init_write (m : PyModule) (cfg : Option GroupConfig) : FileWrite :=
  { path := .inFolder "__init__", members := [],
    content := init_content cfg (classNamesOf m) (functionNamesOf m), isUnit := false }

/-- The interface-file write at the output root (lines 861-865). -/
def interface_write (m : PyModule) (base : String) (cfg : Option GroupConfig) : FileWrite :=
  { path := .atRoot base, members := [],
    content := create_interface_file base (classNamesOf m) (functionNamesOf m) cfg,
    isUnit := false }

/-- The ordered list of file writes performed by `write_split_files`
after a successful parse (lines 781-865): residual file, unit files,
`main.py` when leftover top-level code exists, the package initializer,
and the interface file at the output root. -/
def write_split_files_plan (m : PyModule) (base : String) (cfg : Option GroupConfig) :
    List FileWrite :=
  [residual_write m base cfg] ++ unit_writes m cfg ++ main_writes m ++
    [init_write m cfg, interface_write m base cfg]

/-- The last write targeting path `p` wins (file-system overwrite
semantics). -/
def last_write (ws : List FileWrite) (p : OutPath) : Option FileWrite :=
  ws.reverse.find? (fun w => decide (w.path = p))

/-- The declaration names embedded in the final content of path `p`. -/
def final_members (ws : List FileWrite) (p : OutPath) : List String :=
  match last_write ws p with
  | some w => w.members
  | none => []

/-- The whole `write_split_files` entry point: aborts with no writes and
no backup when the config was supplied but failed to parse, or when
`parse_script` fails; otherwise creates the backup (unless one already
exists) and performs the emission plan. -/
structure SplitRun where
  writes : List FileWrite
  backupCreated : Bool

/-- `write_split_files(code_path, output_dir, config_path)`.  The config
argument is `none` when no config path was given, `some none` when the
given config failed to parse, `some (some c)` when it parsed to `c`. -/
def write_split_files (src : PySource) (base : String)
    (cfgArg : Option (Option GroupConfig)) (backupExists : Bool) : SplitRun :=
  match cfgArg with
  | some none => { writes := [], backupCreated := false }
  | _ =>
    let cfg : Option GroupConfig :=
      match cfgArg with
      | some (some c) => some c
      | _ => none
    match parse_script src with
    | none => { writes := [], backupCreated := false }
    | some m =>
        { writes := write_split_files_plan m base cfg,
          backupCreated := !backupExists }

/-! ### Structural validation (`_validate_functionality`) -/

/-- The result record of `_validate_functionality` (the fields the claims
concern).  The inputs are the collected name sets: the original file's
top-level class/function names and the class/function names recovered
from the emitted layout. -/
structure FunctionalityResults where
  classes_match : Bool
  functions_match : Bool
  errors : List String
  warnings : List String
  missing_classes : List String
  missing_functions : List String
deriving DecidableEq

/-- The missing-names set `set(original) - set(emitted)` of lines 574-581. -/
def missingNames (orig split : List String) : List String :=
  (dedupFirst orig).filter (fun n => decide (n ∉ dedupFirst split))

/-- `_validate_functionality`, lines 573-599: compute the missing sets
(errors) and the extra checks (warnings).  Python set semantics are
modelled by first-occurrence deduplication; note the extra checks compare
set sizes (`len(split) > len(original)`, lines 593 and 597), not set
difference. -/
def validate_functionality (originalClasses originalFunctions
    splitClasses splitFunctions : List String) : FunctionalityResults :=
  { classes_match := (missingNames originalClasses splitClasses).isEmpty,
    functions_match := (missingNames originalFunctions splitFunctions).isEmpty,
    errors :=
      (if (missingNames originalClasses splitClasses).isEmpty then []
       else ["Missing classes in split files: " ++
         String.intercalate ", " (missingNames originalClasses splitClasses)]) ++
      (if (missingNames originalFunctions splitFunctions).isEmpty then []
       else ["Missing functions in split files: " ++
         String.intercalate ", " (missingNames originalFunctions splitFunctions)]),
    warnings :=
      (if decide ((dedupFirst originalClasses).length < (dedupFirst splitClasses).length) then
        ["Extra classes found in split files: " ++
          String.intercalate ", " ((dedupFirst splitClasses).filter
            (fun n => decide (n ∉ dedupFirst originalClasses)))]
       else []) ++
      (if decide ((dedupFirst originalFunctions).length < (dedupFirst splitFunctions).length) then
        ["Extra functions found in split files: " ++
          String.intercalate ", " ((dedupFirst splitFunctions).filter
            (fun n => decide (n ∉ dedupFirst originalFunctions)))]
       else []),
    missing_classes := missingNames originalClasses splitClasses,
    missing_functions := missingNames originalFunctions splitFunctions }

/-- The extra-classes set (`split_classes - original_class_names`) the
spec speaks about, for stating the extra-names property. -/
def extraClasses (originalClasses splitClasses : List String) : List String :=
  (dedupFirst splitClasses).filter (fun n => decide (n ∉ dedupFirst originalClasses))

/-- Result record of the syntax stage, as consumed by
`validate_split_files`. -/
structure ParseStage where
  all_valid : Bool
  errors : List String
deriving DecidableEq

/-- Result record of the import stage, as consumed by
`validate_split_files`. -/
structure ImportStage where
  all_imports_successful : Bool
  errors : List String
  warnings : List String
deriving DecidableEq

/-- The overall report assembled by `validate_split_files`. -/
structure ValidationReport where
  success : Bool
  errors : List String
  warnings : List String
deriving DecidableEq

/-- `validate_split_files`, lines 271-300: syntax failures end the
pipeline early with `success = False`; otherwise import-stage
errors/warnings are merged when that stage failed, functionality errors
are merged when `classes_match` is false, and
`success = (errors is empty)`. -/
def validate_split_files (syn : ParseStage) (imp : ImportStage)
    (fn : FunctionalityResults) : ValidationReport :=
  if !syn.all_valid then
    { success := false, errors := syn.errors, warnings := [] }
  else
    let e1 := if !imp.all_imports_successful then imp.errors else []
    let w1 := if !imp.all_imports_successful then imp.warnings else []
    let e2 := if !fn.classes_match then fn.errors else []
    let errors := e1 ++ e2
    { success := errors.isEmpty, errors := errors, warnings := w1 }

/-! ### Sandbox import rewriting (`_create_test_version_with_fixed_imports`) -/

/-- The rewrite condition of lines 382-385: the stripped line starts with
a parent-relative import, or contains the literal substring
`from ..core` or `from ..models` anywhere. -/
def fixCond (line : String) : Bool :=
  let stripped := pyStrip line
  pyStartsWith stripped "from .." || pyStartsWith stripped "import .." ||
    pyContains stripped "from ..core" || pyContains stripped "from ..models"

/-- One line of the sandbox copy: lines matching `fixCond` are rewritten
into commented-out form, all others are copied unchanged (lines 379-388). -/
def fix_import_line (line : String) : String :=
  if fixCond line then "# " ++ line ++ "  # Commented out for validation"
  else line

/-- The whole sandbox copy of one file: split on newlines, rewrite each
line, re-join (lines 376-392). -/
def fix_file_content (content : String) : String :=
  String.intercalate "\n" ((pySplitChar content '\n').map fix_import_line)

/-! ### The import-validation stage (`_validate_imports`) -/

/-- The process-wide state `_validate_imports` mutates: the module search
path `sys.path` and the registered names of `sys.modules`. -/
structure SysState where
  path : List String
  modules : List String
deriving DecidableEq

/-- Outcome of one dynamic-loading call (`exec_module`): success, an
`ImportError` (including `ModuleNotFoundError`), or any other
exception. -/
inductive ExecOutcome where
  | success
  | importError (msg : String)
  | otherError (msg : String)
deriving DecidableEq

/-- Oracle entry for one non-initializer module file found in the sandbox
folder: module name (file name without `.py`), whether
`spec_from_file_location` produced a spec with a loader, the
`exec_module` outcome, and the `sys.modules` entries that executing the
module's top-level code registers as a side effect — `exec_module` runs
the file, so an absolute `import logging` inside it registers `logging`
process-wide. -/
structure FileProbe where
  modName : String
  specOk : Bool
  outcome : ExecOutcome
  extraMods : List String
deriving DecidableEq

/-- Oracle for every fallible operation of one `_validate_imports` run:
whether the sandbox copy (`_create_test_version_with_fixed_imports`)
succeeds, whether listing the sandbox folder succeeds, the spec/loading
outcomes for the initializer and each module file, and the `sys.modules`
entries the initializer's execution registers as a side effect of its own
imports. -/
structure ImportOracle where
  copyOk : Bool
  listdirOk : Bool
  initSpecOk : Bool
  initOutcome : ExecOutcome
  initExtraMods : List String
  files : List FileProbe
deriving DecidableEq

/-- Every `sys.modules` entry that the stage's `exec_module` calls can
register as a side effect of executing the loaded code: the
initializer's transitive-import registrations plus those of every module
file whose spec was loadable. -/
def stageExtraMods (o : ImportOracle) : List String :=
  (if o.initSpecOk then o.initExtraMods else []) ++
    o.files.flatMap (fun f => if f.specOk then f.extraMods else [])

/-- The result record of `_validate_imports`. -/
structure ImportStageResults where
  all_imports_successful : Bool
  successful_imports : List String
  failed_imports : List String
  errors : List String
  warnings : List String
deriving DecidableEq

/-- The initial result record of `_validate_imports` (lines 403-409). -/
def emptyImportResults : ImportStageResults :=
  { all_imports_successful := true
    successful_imports := []
    failed_imports := []
    errors := []
    warnings := [] }

/-- Python `"relative import" in str(e).lower()`. -/
def relativeImportMsg (msg : String) : Bool :=
  pyContains (pyLower msg) "relative import"

/-- The package-initializer import attempt (lines 422-442): failures
whose message mentions a relative import are warnings, any other failure
is an error and fails the stage.  No `sys.modules` entry is registered
for the initializer. -/
def initStep (r : ImportStageResults) (o : ImportOracle) : ImportStageResults :=
  if !o.initSpecOk then
    { r with warnings := r.warnings ++ ["Could not create module spec for __init__.py"] }
  else
    match o.initOutcome with
    | .success => { r with successful_imports := r.successful_imports ++ ["__init__.py"] }
    | .importError msg | .otherError msg =>
      if relativeImportMsg msg then
        { r with warnings :=
            r.warnings ++ ["Expected relative import issue in __init__.py: " ++ msg] }
      else
        { r with
          all_imports_successful := false,
          failed_imports := r.failed_imports ++ ["__init__.py"],
          errors := r.errors ++ ["Failed to import main package: " ++ msg] }

/-- One iteration of the individual-file loop (lines 444-474): when a
spec exists, `sys.modules[f"{base_name}.{module_name}"]` is registered
before `exec_module` runs, and executing the module registers its own
transitive imports (`f.extraMods`); an `ImportError` is recorded as a
warning either way, any other exception fails the stage. -/
def fileStep (base : String) (acc : ImportStageResults × List String)
    (f : FileProbe) : ImportStageResults × List String :=
  let r := acc.1
  let registered := acc.2
  if !f.specOk then
    ({ r with warnings :=
        r.warnings ++ ["Could not create module spec for " ++ f.modName ++ ".py"] },
     registered)
  else
    let registered := registered ++ (base ++ "." ++ f.modName) :: f.extraMods
    match f.outcome with
    | .success =>
        ({ r with successful_imports := r.successful_imports ++ [f.modName ++ ".py"] },
         registered)
    | .importError msg =>
        if relativeImportMsg msg then
          ({ r with warnings := r.warnings ++
              ["Expected relative import issue in " ++ f.modName ++ ".py: " ++ msg] },
           registered)
        else
          ({ r with warnings := r.warnings ++
              ["Import warning for " ++ f.modName ++ ".py: " ++ msg] },
           registered)
    | .otherError msg =>
        ({ r with
            all_imports_successful := false,
            failed_imports := r.failed_imports ++ [f.modName ++ ".py"],
            errors := r.errors ++ ["Failed to import " ++ f.modName ++ ".py: " ++ msg] },
         registered)

/-- `_validate_imports`, lines 401-490, as a state machine.  Returns the
result record, the final process-wide state, and whether the temporary
sandbox directory still exists (the `with TemporaryDirectory()` context
removes it on every exit).  When the sandbox copy fails, the exception
reaches the outer handler before `sys.path` is touched; otherwise the
initializer and each module file are executed — every execution also
registering that file's transitive imports — and the `finally` block
(lines 476-484) removes the temporary directory from `sys.path` and
deletes every `sys.modules` entry whose name starts with `base_name`, on
both the normal path and the exception path modelled by
`listdirOk = false`.  The prefix filter leaves in place any side-effect
registration whose name does not start with the base name. -/
def validate_imports (st : SysState) (base tempDir : String) (o : ImportOracle) :
    ImportStageResults × SysState × Bool :=
  let r0 : ImportStageResults := emptyImportResults
  if !o.copyOk then
    ({ r0 with
        all_imports_successful := false,
        errors := ["Error setting up import test environment: copy failed"] },
     st, false)
  else
    let st1 := if tempDir ∈ st.path then st else { st with path := tempDir :: st.path }
    let r1 := initStep r0 o
    let initRegs : List String := if o.initSpecOk then o.initExtraMods else []
    let step2 :=
      if o.listdirOk then o.files.foldl (fileStep base) (r1, initRegs)
      else (r1, initRegs)
    let st2 : SysState :=
      { path := st1.path.erase tempDir,
        modules := (st1.modules ++ step2.2).filter (fun n => !(pyStartsWith n base)) }
    let r3 :=
      if o.listdirOk then step2.1
      else { step2.1 with
             all_imports_successful := false,
             errors := step2.1.errors ++
               ["Error setting up import test environment: listdir failed"] }
    (r3, st2, false)

/-! ### Helper lemmas -/

/-- Membership survives first-occurrence deduplication. -/
theorem mem_dedupFirst_aux (l : List String) (acc : List String) (x : String) :
    x ∈ l.foldl (fun acc x => if x ∈ acc then acc else acc ++ [x]) acc ↔
      x ∈ acc ∨ x ∈ l := by
  induction l generalizing acc with
  | nil => simp
  | cons y t ih =>
    simp only [List.foldl_cons, ih, List.mem_cons]
    by_cases hy : y ∈ acc
    · simp only [if_pos hy]
      constructor
      · rintro (h | h) <;> tauto
      · rintro (h | h | h)
        · tauto
        · subst h; tauto
        · tauto
    · simp only [if_neg hy, List.mem_append, List.mem_singleton]
      tauto

/-- Membership in `dedupFirst`. -/
theorem mem_dedupFirst {x : String} {l : List String} : x ∈ dedupFirst l ↔ x ∈ l := by
  simpa using mem_dedupFirst_aux l [] x

/-- A string is a Python-prefix of itself followed by anything. -/
theorem pyStartsWith_append (a b : String) : pyStartsWith (a ++ b) a = true := by
  simp [pyStartsWith, String.data_append, List.isPrefixOf_iff_prefix, List.prefix_append]

/-- Python-prefix through a double append. -/
theorem pyStartsWith_append2 (a b c : String) : pyStartsWith (a ++ b ++ c) a = true := by
  simp [pyStartsWith, String.data_append, List.isPrefixOf_iff_prefix, List.append_assoc,
    List.prefix_append]

/-- The registered-names component of one `fileStep`: unchanged when no
spec exists, otherwise extended by the explicit name
`base ++ "." ++ modName` and the executed module's side-effect
registrations. -/
theorem fileStep_regs (base : String) (acc : ImportStageResults × List String)
    (f : FileProbe) :
    (fileStep base acc f).2 = acc.2 ∨
      (f.specOk = true ∧
        (fileStep base acc f).2 = acc.2 ++ (base ++ "." ++ f.modName) :: f.extraMods) := by
  rcases acc with ⟨r, regs⟩
  by_cases hs : f.specOk = true
  · cases ho : f.outcome with
    | success => exact Or.inr ⟨hs, by simp [fileStep, hs, ho]⟩
    | importError msg =>
        refine Or.inr ⟨hs, ?_⟩
        by_cases hm : relativeImportMsg msg = true <;> simp [fileStep, hs, ho, hm]
    | otherError msg => exact Or.inr ⟨hs, by simp [fileStep, hs, ho]⟩
  · left; simp [fileStep, hs]

/-- Every `sys.modules` name registered by the individual-file loop was
either already registered, carries the explicit `base ++ "." ++ mod`
form of line 458, or is a side-effect registration of some executed
module file. -/
theorem fileStep_registered_shape (base : String) (files : List FileProbe) :
    ∀ acc : ImportStageResults × List String,
      ∀ x ∈ (files.foldl (fileStep base) acc).2,
        x ∈ acc.2 ∨ (∃ mn : String, x = base ++ "." ++ mn) ∨
          x ∈ files.flatMap (fun f => if f.specOk = true then f.extraMods else []) := by
  induction files with
  | nil => intro acc x hx; exact Or.inl hx
  | cons f t ih =>
    intro acc x hx
    simp only [List.foldl_cons] at hx
    rcases ih (fileStep base acc f) x hx with h | h | h
    · rcases fileStep_regs base acc f with h2 | ⟨hs, h2⟩
      · rw [h2] at h; exact Or.inl h
      · rw [h2] at h
        rcases List.mem_append.mp h with h3 | h3
        · exact Or.inl h3
        · rcases List.mem_cons.mp h3 with h4 | h4
          · exact Or.inr (Or.inl ⟨f.modName, h4⟩)
          · refine Or.inr (Or.inr (List.mem_flatMap.mpr ⟨f, by simp, ?_⟩))
            rw [if_pos hs]
            exact h4
    · exact Or.inr (Or.inl h)
    · obtain ⟨g, hg, hxg⟩ := List.mem_flatMap.mp h
      exact Or.inr (Or.inr (List.mem_flatMap.mpr ⟨g, by simp [hg], hxg⟩))

/-- The stage-success flag survives one `fileStep` when the file has a
spec and does not raise a non-`ImportError` exception. -/
theorem fileStep_flag_step (base : String) (acc : ImportStageResults × List String)
    (f : FileProbe) (hr : acc.1.all_imports_successful = true)
    (hspec : f.specOk = true)
    (hout : ∀ msg, f.outcome ≠ ExecOutcome.otherError msg) :
    (fileStep base acc f).1.all_imports_successful = true := by
  rcases acc with ⟨r, regs⟩
  cases ho : f.outcome with
  | success => simp [fileStep, hspec, ho]; simpa using hr
  | importError msg =>
      by_cases hm : relativeImportMsg msg = true <;>
        (simp [fileStep, hspec, ho, hm]; simpa using hr)
  | otherError msg => exact absurd ho (hout msg)

/-- The stage-success flag survives the individual-file loop when every
file has a spec and none raises a non-`ImportError` exception. -/
theorem fileStep_flag (base : String) (files : List FileProbe) :
    ∀ acc : ImportStageResults × List String,
      acc.1.all_imports_successful = true →
      (∀ f ∈ files, f.specOk = true ∧ ∀ msg, f.outcome ≠ ExecOutcome.otherError msg) →
      (files.foldl (fileStep base) acc).1.all_imports_successful = true := by
  induction files with
  | nil => intro acc h _; simpa using h
  | cons f t ih =>
    intro acc h hf
    simp only [List.foldl_cons]
    obtain ⟨hspec, hout⟩ := hf f (by simp)
    exact ih _ (fileStep_flag_step base acc f h hspec hout)
      (fun g hg => hf g (by simp [hg]))

/-- The `TemporaryDirectory` context and the `finally` block: on every
exit path the sandbox directory is gone and the temporary directory is no
longer on `sys.path`. -/
theorem validate_imports_path_cleanup (st : SysState) (base tempDir : String)
    (o : ImportOracle) (h : tempDir ∉ st.path) :
    (validate_imports st base tempDir o).2.2 = false ∧
    tempDir ∉ (validate_imports st base tempDir o).2.1.path := by
  by_cases hc : o.copyOk = true
  · simp only [validate_imports, hc, Bool.not_true, Bool.false_eq_true, if_false, if_neg h]
    refine ⟨trivial, ?_⟩
    simp only [List.erase_cons_head]
    exact h
  · simp only [validate_imports, hc]
    simp only [Bool.not_eq_true] at hc
    simp only [hc, Bool.not_false, if_true]
    exact ⟨trivial, h⟩

/-- Shape of the surviving `sys.modules` registry after a stage whose
sandbox copy succeeded: the old entries plus the stage's registrations —
each either an explicit `base ++ "." ++ mod` entry or a side-effect
registration of some executed file — filtered by the base-name test. -/
theorem validate_imports_modules_shape (st : SysState) (base tempDir : String)
    (o : ImportOracle) (hc : o.copyOk = true) :
    ∃ regs : List String,
      (∀ x ∈ regs, (∃ mn : String, x = base ++ "." ++ mn) ∨ x ∈ stageExtraMods o) ∧
      (validate_imports st base tempDir o).2.1.modules =
        (st.modules ++ regs).filter (fun n => !(pyStartsWith n base)) := by
  refine ⟨if o.listdirOk then
      (o.files.foldl (fileStep base)
        (initStep emptyImportResults o, if o.initSpecOk then o.initExtraMods else [])).2
    else (if o.initSpecOk then o.initExtraMods else []), ?_, ?_⟩
  · intro x hx
    by_cases hld : o.listdirOk = true
    · rw [if_pos hld] at hx
      rcases fileStep_registered_shape base o.files
          (initStep emptyImportResults o, if o.initSpecOk then o.initExtraMods else [])
          x hx with h | h | h
      · right
        simp only [stageExtraMods]
        exact List.mem_append_left _ h
      · exact Or.inl h
      · right
        simp only [stageExtraMods]
        exact List.mem_append_right _ h
    · rw [if_neg hld] at hx
      right
      simp only [stageExtraMods]
      exact List.mem_append_left _ hx
  · simp only [validate_imports, hc, Bool.not_true, Bool.false_eq_true, if_false]
    by_cases ht : tempDir ∈ st.path <;> by_cases hld : o.listdirOk = true <;>
      simp [ht, hld]

/-- When the sandbox copy fails, the exception reaches the outer handler
before any registration, leaving the process state untouched. -/
theorem validate_imports_state_of_copy_failed (st : SysState) (base tempDir : String)
    (o : ImportOracle) (hc : o.copyOk = false) :
    (validate_imports st base tempDir o).2.1 = st := by
  simp [validate_imports, hc]

/-- C4 (amended): on every exit path of the import-validation stage the
temporary sandbox directory has been removed and taken off the module
search path, and every module-registry entry whose name starts with the
package base name — in particular every entry the stage itself
registered under the package name at line 458 — is deleted once the
cleanup runs; but an entry that survives without having been present
before the stage is a side-effect registration made while executing the
loaded modules (their transitive absolute imports), and every
pre-existing entry not matching the base-name prefix survives.  The
original claim fails because those side-effect registrations are
introduced by the stage yet never removed. -/
theorem validate_imports_cleanup (st : SysState) (base tempDir : String)
    (o : ImportOracle) (h : tempDir ∉ st.path) :
    (validate_imports st base tempDir o).2.2 = false ∧
    tempDir ∉ (validate_imports st base tempDir o).2.1.path ∧
    (o.copyOk = true → ∀ n, pyStartsWith n base = true →
      n ∉ (validate_imports st base tempDir o).2.1.modules) ∧
    (∀ n ∈ (validate_imports st base tempDir o).2.1.modules,
      n ∈ st.modules ∨ n ∈ stageExtraMods o) ∧
    (∀ n ∈ st.modules, pyStartsWith n base = false →
      n ∈ (validate_imports st base tempDir o).2.1.modules) := by
  refine ⟨(validate_imports_path_cleanup st base tempDir o h).1,
    (validate_imports_path_cleanup st base tempDir o h).2, ?_, ?_, ?_⟩
  · intro hc n hpre hmem
    obtain ⟨regs, hregs, heq⟩ := validate_imports_modules_shape st base tempDir o hc
    rw [heq] at hmem
    have := (List.mem_filter.mp hmem).2
    simp [hpre] at this
  · intro n hn
    by_cases hc : o.copyOk = true
    · obtain ⟨regs, hregs, heq⟩ := validate_imports_modules_shape st base tempDir o hc
      rw [heq] at hn
      rcases List.mem_append.mp (List.mem_filter.mp hn).1 with h1 | h1
      · exact Or.inl h1
      · rcases hregs n h1 with ⟨mn, rfl⟩ | h2
        · exfalso
          have hpre := pyStartsWith_append2 base "." mn
          have := (List.mem_filter.mp hn).2
          simp [hpre] at this
        · exact Or.inr h2
    · rw [validate_imports_state_of_copy_failed st base tempDir o
        (by simpa using hc)] at hn
      exact Or.inl hn
  · intro n hn hpre
    by_cases hc : o.copyOk = true
    · obtain ⟨regs, hregs, heq⟩ := validate_imports_modules_shape st base tempDir o hc
      rw [heq]
      exact List.mem_filter.mpr ⟨List.mem_append_left _ hn, by simp [hpre]⟩
    · rw [validate_imports_state_of_copy_failed st base tempDir o (by simpa using hc)]
      exact hn

/-- Counterexample to C4 as stated: executing an emitted module file runs
its absolute imports, so the stage registers an entry (`logging`) that
does not carry the base-name prefix, and the prefix-filtered cleanup of
lines 482-484 leaves that stage-introduced entry in the registry after
the stage returns. -/
theorem validate_imports_cleanup_cex :
    ("logging" ∉ ({ path := [], modules := [] } : SysState).modules) ∧
    "logging" ∈ (validate_imports { path := [], modules := [] } "pkg" "/tmp/sandbox"
      { copyOk := true, listdirOk := true, initSpecOk := true,
        initOutcome := ExecOutcome.success,
        initExtraMods := [],
        files := [{ modName := "A"
                    specOk := true
                    outcome := ExecOutcome.success
                    extraMods := ["logging"] }] }).2.1.modules := by
  decide

/-- C10 (amended): the registry cleanup of the import-validation stage
deletes every `sys.modules` entry whose name starts with the package
base name — including entries registered before the stage began — and it
never deletes an entry that does not match the prefix, so every
pre-existing non-matching entry survives; the stage can however add
non-matching entries (the transitive imports registered while executing
the loaded modules), so the non-matching portion of the registry is not
left unchanged — it can grow by exactly those side-effect
registrations. -/
theorem validate_imports_prefix_cleanup (st : SysState) (base tempDir : String)
    (o : ImportOracle) (n : String) :
    (o.copyOk = true → pyStartsWith n base = true →
      n ∉ (validate_imports st base tempDir o).2.1.modules) ∧
    (pyStartsWith n base = false → n ∈ st.modules →
      n ∈ (validate_imports st base tempDir o).2.1.modules) ∧
    (pyStartsWith n base = false →
      n ∈ (validate_imports st base tempDir o).2.1.modules →
      n ∈ st.modules ∨ n ∈ stageExtraMods o) := by
  refine ⟨?_, ?_, ?_⟩
  · intro hc hpre hmem
    obtain ⟨regs, hregs, heq⟩ := validate_imports_modules_shape st base tempDir o hc
    rw [heq] at hmem
    have := (List.mem_filter.mp hmem).2
    simp [hpre] at this
  · intro hpre hn
    by_cases hc : o.copyOk = true
    · obtain ⟨regs, hregs, heq⟩ := validate_imports_modules_shape st base tempDir o hc
      rw [heq]
      exact List.mem_filter.mpr ⟨List.mem_append_left _ hn, by simp [hpre]⟩
    · rw [validate_imports_state_of_copy_failed st base tempDir o (by simpa using hc)]
      exact hn
  · intro hpre hn
    by_cases hc : o.copyOk = true
    · obtain ⟨regs, hregs, heq⟩ := validate_imports_modules_shape st base tempDir o hc
      rw [heq] at hn
      rcases List.mem_append.mp (List.mem_filter.mp hn).1 with h1 | h1
      · exact Or.inl h1
      · rcases hregs n h1 with ⟨mn, rfl⟩ | h2
        · rw [pyStartsWith_append2] at hpre
          exact absurd hpre (by simp)
        · exact Or.inr h2
    · rw [validate_imports_state_of_copy_failed st base tempDir o
        (by simpa using hc)] at hn
      exact Or.inl hn

/-- Counterexample to C10's frame clause as stated: the registry entries
not matching the prefix are not left unchanged by the stage — a
non-prefixed entry (`logging`) absent before the stage is present after
it, registered while executing a loaded module. -/
theorem validate_imports_prefix_cleanup_cex :
    pyStartsWith "logging" "pkg" = false ∧
    ("logging" ∉ ({ path := [], modules := ["pkg_old"] } : SysState).modules) ∧
    "logging" ∈ (validate_imports { path := [], modules := ["pkg_old"] } "pkg"
      "/tmp/sandbox"
      { copyOk := true, listdirOk := true, initSpecOk := true,
        initOutcome := ExecOutcome.success,
        initExtraMods := ["logging"],
        files := [] }).2.1.modules := by
  decide

/-- C7: when `parse_script` fails, `write_split_files` aborts before
creating the backup or writing any file. -/
theorem write_split_files_abort_on_parse_failure (src : PySource) (base : String)
    (cfgArg : Option (Option GroupConfig)) (backupExists : Bool)
    (h : parse_script src = none) :
    (write_split_files src base cfgArg backupExists).writes = [] ∧
    (write_split_files src base cfgArg backupExists).backupCreated = false := by
  cases src with
  | valid m => simp [parse_script] at h
  | invalid =>
    rcases cfgArg with _ | ⟨_ | c⟩ <;> simp [write_split_files, parse_script]

/-- Witness for C7 at a concrete failing source. -/
theorem write_split_files_abort_on_parse_failure_witness :
    parse_script PySource.invalid = none ∧
    (write_split_files PySource.invalid "pkg" none false).writes = [] ∧
    (write_split_files PySource.invalid "pkg" none false).backupCreated = false := by
  refine ⟨rfl, ?_, ?_⟩
  · exact (write_split_files_abort_on_parse_failure PySource.invalid "pkg" none false rfl).1
  · exact (write_split_files_abort_on_parse_failure PySource.invalid "pkg" none false rfl).2

/-- Concrete process-wide state for the import-stage witnesses: one
pre-existing prefixed entry and one unrelated entry. -/
def exSysSt : SysState := { path := ["/usr/lib"], modules := ["pkg_old", "other"] }

/-- Concrete oracle for the import-stage witnesses: one module file whose
execution registers `logging` as a side effect of its own imports. -/
def exOracle : ImportOracle :=
  { copyOk := true
    listdirOk := true
    initSpecOk := true
    initOutcome := ExecOutcome.success
    initExtraMods := []
    files := [{ modName := "A"
                specOk := true
                outcome := ExecOutcome.success
                extraMods := ["logging"] }] }

/-- Witness for the amended C4 at a concrete state and oracle. -/
theorem validate_imports_cleanup_witness :
    ("/tmp/sandbox" ∉ exSysSt.path) ∧
    ((validate_imports exSysSt "pkg" "/tmp/sandbox" exOracle).2.2 = false ∧
     "/tmp/sandbox" ∉ (validate_imports exSysSt "pkg" "/tmp/sandbox" exOracle).2.1.path ∧
     (exOracle.copyOk = true → ∀ n, pyStartsWith n "pkg" = true →
       n ∉ (validate_imports exSysSt "pkg" "/tmp/sandbox" exOracle).2.1.modules) ∧
     (∀ n ∈ (validate_imports exSysSt "pkg" "/tmp/sandbox" exOracle).2.1.modules,
       n ∈ exSysSt.modules ∨ n ∈ stageExtraMods exOracle) ∧
     (∀ n ∈ exSysSt.modules, pyStartsWith n "pkg" = false →
       n ∈ (validate_imports exSysSt "pkg" "/tmp/sandbox" exOracle).2.1.modules)) :=
  ⟨by decide, validate_imports_cleanup exSysSt "pkg" "/tmp/sandbox" exOracle (by decide)⟩

/-- Witness for the amended C10: the pre-existing prefixed entry
`pkg_old` is deregistered, the unrelated entry `other` survives, and the
surviving new entry `logging` is accounted for by the stage's
side-effect registrations. -/
theorem validate_imports_prefix_cleanup_witness :
    pyStartsWith "pkg_old" "pkg" = true ∧
    "pkg_old" ∉ (validate_imports exSysSt "pkg" "/tmp/sandbox" exOracle).2.1.modules ∧
    pyStartsWith "other" "pkg" = false ∧
    "other" ∈ (validate_imports exSysSt "pkg" "/tmp/sandbox" exOracle).2.1.modules ∧
    ("logging" ∈ exSysSt.modules ∨ "logging" ∈ stageExtraMods exOracle) := by
  refine ⟨by decide, ?_, by decide, ?_, ?_⟩
  · exact (validate_imports_prefix_cleanup exSysSt "pkg" "/tmp/sandbox" exOracle
      "pkg_old").1 rfl (by decide)
  · exact (validate_imports_prefix_cleanup exSysSt "pkg" "/tmp/sandbox" exOracle
      "other").2.1 (by decide) (by decide)
  · exact (validate_imports_prefix_cleanup exSysSt "pkg" "/tmp/sandbox" exOracle
      "logging").2.2 (by decide) (by decide)

/-- C6 (amended): a sandbox line is rewritten exactly when it matches the
rewrite condition — its stripped form starts with a parent-relative
import, or it contains the literal substring `from ..core` or
`from ..models` anywhere; lines not matching the condition (in
particular, absolute import lines free of those substrings) are copied
unchanged, and an `ImportError` raised while loading an individual module
never fails the stage. -/
theorem fix_import_line_spec :
    (∀ line, fixCond line = false → fix_import_line line = line) ∧
    (∀ line, fix_import_line line ≠ line → fixCond line = true) ∧
    (∀ line, fixCond line = true →
      fix_import_line line = "# " ++ line ++ "  # Commented out for validation") ∧
    (∀ (st : SysState) (base tempDir : String) (o : ImportOracle),
      o.copyOk = true → o.listdirOk = true → o.initSpecOk = true →
      o.initOutcome = ExecOutcome.success →
      (∀ f ∈ o.files, f.specOk = true ∧
        ∀ msg, f.outcome ≠ ExecOutcome.otherError msg) →
      (validate_imports st base tempDir o).1.all_imports_successful = true) := by
  refine ⟨?_, ?_, ?_, ?_⟩
  · intro l h; simp [fix_import_line, h]
  · intro l h
    by_cases hc : fixCond l = true
    · exact hc
    · have hcf : fixCond l = false := by simpa using hc
      exact absurd (by simp [fix_import_line, hcf]) h
  · intro l h; simp [fix_import_line, h]
  · intro st base tempDir o hc hld hspec hinit hfiles
    simp only [validate_imports, hc, Bool.not_true, Bool.false_eq_true, if_false, hld,
      if_true]
    have hinit1 : (initStep emptyImportResults o).all_imports_successful = true := by
      simp [initStep, hspec, hinit, emptyImportResults]
    exact fileStep_flag base o.files
      (initStep emptyImportResults o, if o.initSpecOk then o.initExtraMods else [])
      hinit1 hfiles

/-- Counterexample to C6 as stated: an absolute import line carrying the
substring `from ..models` in a trailing comment is not a parent-relative
escape, yet the sandbox copy rewrites it. -/
theorem fix_import_line_cex :
    pyStartsWith (pyStrip "import os  # from ..models") "from .." = false ∧
    pyStartsWith (pyStrip "import os  # from ..models") "import .." = false ∧
    fix_import_line "import os  # from ..models" ≠ "import os  # from ..models" := by
  decide

/-- Witness for the amended C6 at concrete lines and a concrete oracle
with one failing absolute import. -/
theorem fix_import_line_spec_witness :
    fixCond "import numpy as np" = false ∧
    fix_import_line "import numpy as np" = "import numpy as np" ∧
    fixCond "from ..core import helper" = true ∧
    fix_import_line "from ..core import helper" =
      "# from ..core import helper  # Commented out for validation" ∧
    (validate_imports { path := [], modules := [] } "pkg" "/tmp/sandbox"
        { copyOk := true, listdirOk := true, initSpecOk := true,
          initOutcome := ExecOutcome.success,
          initExtraMods := [],
          files := [{ modName := "A"
                      specOk := true
                      outcome := ExecOutcome.importError "No module named numpy"
                      extraMods := [] }] }).1.all_imports_successful = true := by
  refine ⟨by decide, ?_, by decide, ?_, ?_⟩
  · exact fix_import_line_spec.1 "import numpy as np" (by decide)
  · exact fix_import_line_spec.2.2.1 "from ..core import helper" (by decide)
  · refine fix_import_line_spec.2.2.2 _ "pkg" "/tmp/sandbox" _ rfl rfl rfl rfl ?_
    intro f hf
    simp only [List.mem_singleton] at hf
    subst hf
    exact ⟨rfl, fun msg h => by cases h⟩

/-- C5 (amended): the structural stage records an error exactly when a
declaration is missing; the extra-names check records a warning exactly
when the emitted name set is strictly larger than the original one (a
size comparison, not an emptiness test on the difference), and it only
ever records a warning; overall success is determined by the error list
alone — replacing either stage's warnings never changes it. -/
theorem validate_functionality_spec :
    (∀ origC origF splitC splitF : List String,
      ((validate_functionality origC origF splitC splitF).errors = [] ↔
        ((validate_functionality origC origF splitC splitF).missing_classes = [] ∧
         (validate_functionality origC origF splitC splitF).missing_functions = []))) ∧
    (∀ origC origF splitC splitF : List String,
      ((validate_functionality origC origF splitC splitF).warnings ≠ [] ↔
        ((dedupFirst origC).length < (dedupFirst splitC).length ∨
         (dedupFirst origF).length < (dedupFirst splitF).length))) ∧
    (∀ (syn : ParseStage) (imp : ImportStage) (fn : FunctionalityResults)
        (w : List String),
      (validate_split_files syn imp { fn with warnings := w }).success =
        (validate_split_files syn imp fn).success) ∧
    (∀ (syn : ParseStage) (imp : ImportStage) (fn : FunctionalityResults)
        (w : List String),
      (validate_split_files syn { imp with warnings := w } fn).success =
        (validate_split_files syn imp fn).success) ∧
    (∀ (syn : ParseStage) (imp : ImportStage) (fn : FunctionalityResults),
      syn.all_valid = true →
      (validate_split_files syn imp fn).success =
        (validate_split_files syn imp fn).errors.isEmpty) := by
  refine ⟨?_, ?_, ?_, ?_, ?_⟩
  · intro origC origF splitC splitF
    simp only [validate_functionality]
    by_cases h1 : (missingNames origC splitC).isEmpty <;>
      by_cases h2 : (missingNames origF splitF).isEmpty <;>
      simp_all [List.isEmpty_iff]
  · intro origC origF splitC splitF
    simp only [validate_functionality]
    by_cases h1 : (dedupFirst origC).length < (dedupFirst splitC).length <;>
      by_cases h2 : (dedupFirst origF).length < (dedupFirst splitF).length <;>
      simp [h1, h2]
  · intro syn imp fn w
    by_cases hs : syn.all_valid <;> simp [validate_split_files, hs]
  · intro syn imp fn w
    by_cases hs : syn.all_valid <;> simp [validate_split_files, hs]
  · intro syn imp fn hs
    simp [validate_split_files, hs]

/-- Counterexample to C5 as stated: with originals `{A, B}` and emitted
`{A, X}`, the extra set `{X}` is non-empty, but because the sets have
equal size no warning is recorded. -/
theorem validate_functionality_cex :
    extraClasses ["A", "B"] ["A", "X"] ≠ [] ∧
    (validate_functionality ["A", "B"] [] ["A", "X"] []).warnings = [] ∧
    (validate_functionality ["A", "B"] [] ["A", "X"] []).errors ≠ [] := by
  decide

/-- Witness for the amended C5 at concrete stage inputs. -/
theorem validate_functionality_spec_witness :
    ((validate_functionality ["A"] [] ["A", "X"] []).warnings ≠ [] ↔
      ((dedupFirst ["A"]).length < (dedupFirst ["A", "X"]).length ∨
       (dedupFirst ([] : List String)).length < (dedupFirst ([] : List String)).length)) ∧
    (({ all_valid := true, errors := [] } : ParseStage).all_valid = true) ∧
    (validate_split_files { all_valid := true, errors := [] }
        { all_imports_successful := true, errors := [], warnings := [] }
        (validate_functionality ["A"] [] ["A", "X"] [])).success =
      (validate_split_files { all_valid := true, errors := [] }
        { all_imports_successful := true, errors := [], warnings := [] }
        (validate_functionality ["A"] [] ["A", "X"] [])).errors.isEmpty := by
  refine ⟨?_, rfl, ?_⟩
  · exact validate_functionality_spec.2.1 ["A"] [] ["A", "X"] []
  · exact validate_functionality_spec.2.2.2.2 _ _ _ rfl

/-- Writes in `main_writes` are not partition units. -/
theorem main_writes_isUnit (m : PyModule) : ∀ w ∈ main_writes m, w.isUnit = false := by
  intro w h
  unfold main_writes at h
  split at h
  · simp at h
  · simp only [List.mem_singleton] at h
    subst h
    rfl

/-- C2 (amended): in config mode, a declaration present in the parsed
source but named in no group of the config is not written into any
partition-unit file, but — contrary to the claim — its text is retained
in the residual file whenever its end line is known. -/
theorem config_unmentioned_retained (m : PyModule) (base n : String) (c : GroupConfig)
    (hn : ∃ d ∈ classesOf m ++ functionsOf m, d.1 = n ∧ d.2.2.isSome = true)
    (hng : ∀ mdl ∈ c.modules, n ∉ mdl.2.1 ∧ n ∉ mdl.2.2) :
    n ∈ residual_members (classesOf m) (functionsOf m) (some c) (classNamesOf m)
      (functionNamesOf m) ∧
    ∀ w ∈ write_split_files_plan m base (some c), w.isUnit = true → n ∉ w.members := by
  have hnsplit1 : n ∉ (splitSets (some c) (classNamesOf m) (functionNamesOf m)).1 := by
    intro hmem
    simp only [splitSets] at hmem
    obtain ⟨mdl, hmdl, hnm⟩ := List.mem_flatMap.mp hmem
    exact (hng mdl hmdl).1 hnm
  have hnsplit2 : n ∉ (splitSets (some c) (classNamesOf m) (functionNamesOf m)).2 := by
    intro hmem
    simp only [splitSets] at hmem
    obtain ⟨mdl, hmdl, hnm⟩ := List.mem_flatMap.mp hmem
    exact (hng mdl hmdl).2 hnm
  obtain ⟨d, hd, hdn, hde⟩ := hn
  constructor
  · have hmem : d ∈ (classesOf m).filter (fun d => decide
        (d.1 ∉ (splitSets (some c) (classNamesOf m) (functionNamesOf m)).1)) ++
        (functionsOf m).filter (fun d => decide
        (d.1 ∉ (splitSets (some c) (classNamesOf m) (functionNamesOf m)).2)) := by
      rcases List.mem_append.mp hd with hdc | hdf
      · exact List.mem_append_left _ (List.mem_filter.mpr ⟨hdc, by simp [hdn, hnsplit1]⟩)
      · exact List.mem_append_right _ (List.mem_filter.mpr ⟨hdf, by simp [hdn, hnsplit2]⟩)
    simp only [residual_members]
    rw [if_neg (by
      simp only [Bool.and_eq_true, List.isEmpty_iff]
      rintro ⟨h1, h2⟩
      rw [h1, h2] at hmem
      simp at hmem)]
    exact List.mem_filterMap.mpr ⟨d, hmem, by simp [hde, hdn]⟩
  · intro w hw hunit
    simp only [write_split_files_plan, unit_writes, List.mem_append, List.mem_cons,
      List.mem_singleton, List.not_mem_nil, or_false, false_or] at hw
    rcases hw with ((hw | hw) | hw) | hw | hw
    · subst hw; simp [residual_write] at hunit
    · obtain ⟨mdl, hmdl, hwe⟩ := List.mem_map.mp hw
      subst hwe
      intro hnm
      simp only [module_write, module_unit_members, List.mem_append, List.mem_filter]
        at hnm
      rcases hnm with ⟨hmem, _⟩ | ⟨hmem, _⟩
      · exact (hng mdl hmdl).1 hmem
      · exact (hng mdl hmdl).2 hmem
    · simp [main_writes_isUnit m w hw] at hunit
    · subst hw; simp [init_write] at hunit
    · subst hw; simp [interface_write] at hunit

/-- Concrete module for the C2 scenario: classes `A`, `B`, `C` where only
`A` and `B` are mentioned by the config. -/
def exM3 : PyModule :=
  { body := [.importStmt "import os",
      .classDef "A" none 2 (some 3) (.node []),
      .classDef "B" none 4 (some 5) (.node []),
      .classDef "C" none 6 (some 7) (.node [])],
    lines := ["import os", "class A:", "    pass", "class B:", "    pass",
      "class C:", "    pass"] }

/-- Config assigning `{A, B}` to group `core` and leaving `C` unmentioned. -/
def exCfg : GroupConfig := { modules := [("core", ["A", "B"], [])] }

/-- Counterexample to C2 as stated: the unmentioned class `C` is retained
in the residual file (it is among the residual write's embedded
declarations, and the final content of the residual path embeds it). -/
theorem config_unmentioned_retained_cex :
    "C" ∈ residual_members (classesOf exM3) (functionsOf exM3) (some exCfg)
      (classNamesOf exM3) (functionNamesOf exM3) ∧
    "C" ∈ final_members (write_split_files_plan exM3 "sample" (some exCfg))
      (OutPath.inFolder "sample") := by
  decide

/-- Witness for the amended C2 at the concrete scenario. -/
theorem config_unmentioned_retained_witness :
    (∃ d ∈ classesOf exM3 ++ functionsOf exM3, d.1 = "C" ∧ d.2.2.isSome = true) ∧
    (∀ mdl ∈ exCfg.modules, "C" ∉ mdl.2.1 ∧ "C" ∉ mdl.2.2) ∧
    ("C" ∈ residual_members (classesOf exM3) (functionsOf exM3) (some exCfg)
        (classNamesOf exM3) (functionNamesOf exM3) ∧
      ∀ w ∈ write_split_files_plan exM3 "sample" (some exCfg), w.isUnit = true →
        "C" ∉ w.members) := by
  refine ⟨by decide, by decide, ?_⟩
  exact config_unmentioned_retained exM3 "sample" "C" exCfg (by decide) (by decide)

/-- Characterization of the class buckets computed by
`analyze_dependencies`: a name lands in the class bucket exactly when it
is read somewhere in the class body, names another top-level class, and
is not the class itself; likewise for the function bucket. -/
theorem classBuckets_mem (classNames functionNames : List String) (cname : String)
    (b : PyNode) :
    (∀ x, x ∈ (classBuckets classNames functionNames cname b).1 ↔
      (x ∈ usedNames b ∧ x ∈ classNames ∧ x ≠ cname)) ∧
    (∀ x, x ∈ (classBuckets classNames functionNames cname b).2 ↔
      (x ∈ usedNames b ∧ x ∈ functionNames)) := by
  constructor
  · intro x
    simp [classBuckets, List.mem_filter, mem_dedupFirst, and_assoc]
  · intro x
    simp [classBuckets, List.mem_filter, mem_dedupFirst]

/-- C3: in default mode, a class whose body reads another class name `nB`
and a function name `nf` gets exactly the analyzer buckets as synthesized
imports in its unit file: one individual `from .nB import nB` line, one
collective `from .functions import ...` line listing the function bucket,
and nothing else; the emitted class unit's content is assembled from
exactly those lines. -/
theorem class_unit_imports_spec (m : PyModule) (base cname nB nf : String) (bA : PyNode)
    (hlast : lastClassBody m.body cname = some bA)
    (hB1 : nB ∈ usedNames bA) (hB2 : nB ∈ classNamesOf m) (hBne : nB ≠ cname)
    (hf1 : nf ∈ usedNames bA) (hf2 : nf ∈ functionNamesOf m) :
    nB ∈ (classUsedLookup m.body (classNamesOf m) (functionNamesOf m) cname).1 ∧
    nf ∈ (classUsedLookup m.body (classNamesOf m) (functionNamesOf m) cname).2 ∧
    ("from ." ++ nB ++ " import " ++ nB) ∈
      depImportLines (classUsedLookup m.body (classNamesOf m) (functionNamesOf m) cname).1
        (classUsedLookup m.body (classNamesOf m) (functionNamesOf m) cname).2 ∧
    ("from .functions import " ++ String.intercalate ", "
        (classUsedLookup m.body (classNamesOf m) (functionNamesOf m) cname).2) ∈
      depImportLines (classUsedLookup m.body (classNamesOf m) (functionNamesOf m) cname).1
        (classUsedLookup m.body (classNamesOf m) (functionNamesOf m) cname).2 ∧
    (∀ x, x ∈ (classUsedLookup m.body (classNamesOf m) (functionNamesOf m) cname).1 ↔
      (x ∈ usedNames bA ∧ x ∈ classNamesOf m ∧ x ≠ cname)) ∧
    (∀ x, x ∈ (classUsedLookup m.body (classNamesOf m) (functionNamesOf m) cname).2 ↔
      (x ∈ usedNames bA ∧ x ∈ functionNamesOf m)) ∧
    (∀ d ∈ classesOf m, d.1 = cname → ∀ e, d.2.2 = some e →
      ∃ w ∈ write_split_files_plan m base none, w.path = OutPath.inFolder cname ∧
        w.isUnit = true ∧
        w.content = class_unit_content (get_imports m.body) m.lines
          (classUsedLookup m.body (classNamesOf m) (functionNamesOf m) cname).1
          (classUsedLookup m.body (classNamesOf m) (functionNamesOf m) cname).2
          d.2.1 e) := by
  have hlook : classUsedLookup m.body (classNamesOf m) (functionNamesOf m) cname =
      classBuckets (classNamesOf m) (functionNamesOf m) cname bA := by
    simp [classUsedLookup, hlast]
  have hchar := classBuckets_mem (classNamesOf m) (functionNamesOf m) cname bA
  have h1 : nB ∈ (classUsedLookup m.body (classNamesOf m) (functionNamesOf m) cname).1 := by
    rw [hlook]
    exact (hchar.1 nB).mpr ⟨hB1, hB2, hBne⟩
  have h2 : nf ∈ (classUsedLookup m.body (classNamesOf m) (functionNamesOf m) cname).2 := by
    rw [hlook]
    exact (hchar.2 nf).mpr ⟨hf1, hf2⟩
  refine ⟨h1, h2, ?_, ?_, ?_, ?_, ?_⟩
  · exact List.mem_append_left _ (List.mem_map.mpr ⟨nB, h1, rfl⟩)
  · refine List.mem_append_right _ ?_
    rw [if_neg (by
      intro hcon
      rw [List.isEmpty_iff] at hcon
      rw [hcon] at h2
      simp at h2)]
    simp
  · intro x; rw [hlook]; exact hchar.1 x
  · intro x; rw [hlook]; exact hchar.2 x
  · intro d hd hdn e hde
    refine ⟨{ path := .inFolder d.1, members := [d.1],
              content := class_unit_content (get_imports m.body) m.lines
                (classUsedLookup m.body (classNamesOf m) (functionNamesOf m) d.1).1
                (classUsedLookup m.body (classNamesOf m) (functionNamesOf m) d.1).2
                d.2.1 e,
              isUnit := true }, ?_, ?_, rfl, ?_⟩
    · refine List.mem_append_left _ (List.mem_append_left _ (List.mem_append_right _ ?_))
      show _ ∈ unit_writes m none
      simp only [unit_writes]
      refine List.mem_append_left _ (List.mem_filterMap.mpr ⟨d, hd, ?_⟩)
      rw [hde]
    · simp [hdn]
    · rw [hdn]

/-- Concrete module for the C3 scenario: class `A` reads class `B` and
function `f` in its body. -/
def exM1 : PyModule :=
  { body := [.classDef "A" none 1 (some 3) (.node [.nameLoad "B", .nameLoad "f"]),
      .classDef "B" none 4 (some 5) (.node []),
      .funcDef "f" none 6 (some 7) (.node [])],
    lines := ["class A:", "    def run(self):", "        return B(), f()",
      "class B:", "    pass", "def f():", "    return 1"] }

/-- Witness for C3 at the concrete scenario. -/
theorem class_unit_imports_spec_witness :
    lastClassBody exM1.body "A" = some (PyNode.node [.nameLoad "B", .nameLoad "f"]) ∧
    "B" ∈ usedNames (PyNode.node [.nameLoad "B", .nameLoad "f"]) ∧
    "B" ∈ classNamesOf exM1 ∧
    "f" ∈ usedNames (PyNode.node [.nameLoad "B", .nameLoad "f"]) ∧
    "f" ∈ functionNamesOf exM1 ∧
    "B" ∈ (classUsedLookup exM1.body (classNamesOf exM1) (functionNamesOf exM1) "A").1 ∧
    "f" ∈ (classUsedLookup exM1.body (classNamesOf exM1) (functionNamesOf exM1) "A").2 ∧
    ("from ." ++ "B" ++ " import " ++ "B") ∈
      depImportLines (classUsedLookup exM1.body (classNamesOf exM1) (functionNamesOf exM1) "A").1
        (classUsedLookup exM1.body (classNamesOf exM1) (functionNamesOf exM1) "A").2 ∧
    ("from .functions import " ++ String.intercalate ", "
        (classUsedLookup exM1.body (classNamesOf exM1) (functionNamesOf exM1) "A").2) ∈
      depImportLines (classUsedLookup exM1.body (classNamesOf exM1) (functionNamesOf exM1) "A").1
        (classUsedLookup exM1.body (classNamesOf exM1) (functionNamesOf exM1) "A").2 := by
  have h := class_unit_imports_spec exM1 "sample" "A" "B" "f"
    (PyNode.node [.nameLoad "B", .nameLoad "f"]) rfl (by decide) (by decide)
    (by decide) (by decide) (by decide)
  exact ⟨rfl, by decide, by decide, by decide, by decide, h.1, h.2.1, h.2.2.1, h.2.2.2.1⟩

/-- Every default-mode class unit write targets the file named after some
top-level class. -/
theorem class_unit_writes_path (m : PyModule) :
    ∀ w ∈ class_unit_writes m, ∃ dd ∈ classesOf m, w.path = OutPath.inFolder dd.1 := by
  intro w hw
  obtain ⟨dd, hdd, hf⟩ := List.mem_filterMap.mp hw
  refine ⟨dd, hdd, ?_⟩
  cases he : dd.2.2 with
  | none => rw [he] at hf; simp at hf
  | some e0 =>
      rw [he] at hf
      simp only [Option.some.injEq] at hf
      rw [← hf]

/-- C9: a top-level `async def` is not returned by the declaration
extractor (removing it leaves the extractor output unchanged), no
partition unit is named after it, its name is re-exported by neither the
package initializer nor the interface file, and its source lines survive
as leftover top-level code emitted into the `main` unit. -/
theorem async_def_not_extracted (m : PyModule) (base n : String) (d : Option Nat)
    (l e : Nat) (b : PyNode) (body1 body2 : List TopStmt)
    (hbody : m.body = body1 ++ TopStmt.asyncFuncDef n d l (some e) b :: body2)
    (hnc : n ∉ classNamesOf m) (hnf : n ∉ functionNamesOf m)
    (hnfn : n ≠ "functions")
    (hocc : ∀ i, l ≤ i → i ≤ e → occupiesLine (classesOf m ++ functionsOf m) i = false)
    (hl : 1 ≤ l) (hle : l ≤ e) (helen : e ≤ m.lines.length) :
    find_top_level_defs m.body = find_top_level_defs (body1 ++ body2) ∧
    (∀ w ∈ write_split_files_plan m base none, w.isUnit = true →
      w.path ≠ OutPath.inFolder n) ∧
    n ∉ init_export_names (classNamesOf m) (functionNamesOf m) ∧
    n ∉ interface_export_names (classNamesOf m) (functionNamesOf m) ∧
    (∀ i, l ≤ i → i ≤ e → ∀ line, m.lines.get? (i - 1) = some line →
      line ∈ top_level_code m) ∧
    (∃ w ∈ write_split_files_plan m base none, w.path = OutPath.inFolder "main" ∧
      w.content = main_unit_content (get_imports m.body)
        ((topUsed m.body).filter (fun x => decide (x ∈ classNamesOf m)))
        ((topUsed m.body).filter (fun x => decide (x ∈ functionNamesOf m)))
        (top_level_code m)) := by
  have hlines : ∀ i, l ≤ i → i ≤ e → ∀ line, m.lines.get? (i - 1) = some line →
      line ∈ top_level_code m := by
    intro i h1 h2 line hline
    have hj : i - 1 < m.lines.length := by
      have : i ≤ m.lines.length := le_trans h2 helen
      omega
    refine List.mem_filterMap.mpr ⟨i - 1, List.mem_range.mpr hj, ?_⟩
    have hi : i - 1 + 1 = i := by omega
    rw [hi, hocc i h1 h2]
    simpa using hline
  have hmainne : (top_level_code m).isEmpty = false := by
    have hj : l - 1 < m.lines.length := by
      have : l ≤ m.lines.length := le_trans hle helen
      omega
    obtain ⟨line, hline⟩ : ∃ line, m.lines.get? (l - 1) = some line :=
      ⟨m.lines.get ⟨l - 1, hj⟩, List.get?_eq_get hj⟩
    have := hlines l le_rfl hle line hline
    rcases htl : top_level_code m with _ | _
    · rw [htl] at this; simp at this
    · rfl
  refine ⟨?_, ?_, ?_, ?_, hlines, ?_⟩
  · rw [hbody]
    simp [find_top_level_defs, List.filterMap_append, List.filterMap_cons]
  · intro w hw hunit
    simp only [write_split_files_plan, unit_writes, List.mem_append, List.mem_cons,
      List.mem_singleton, List.not_mem_nil, or_false, false_or] at hw
    rcases hw with ((hw | hw) | hw) | hw | hw
    · subst hw; simp [residual_write] at hunit
    · rcases hw with hw | hw
      · obtain ⟨dd, hdd, hpath⟩ := class_unit_writes_path m w hw
        rw [hpath]
        intro hcon
        simp only [OutPath.inFolder.injEq] at hcon
        exact hnc (hcon ▸ List.mem_map.mpr ⟨dd, hdd, rfl⟩)
      · by_cases hfe : (functionsOf m).isEmpty
        · simp [hfe] at hw
        · simp only [hfe, Bool.false_eq_true, if_false, List.mem_singleton] at hw
          subst hw
          simp only [functions_unit_write]
          intro hcon
          simp only [OutPath.inFolder.injEq] at hcon
          exact hnfn hcon.symm
    · simp [main_writes_isUnit m w hw] at hunit
    · subst hw; simp [init_write] at hunit
    · subst hw; simp [interface_write] at hunit
  · simp only [init_export_names, List.mem_append]
    rintro (h | h)
    · exact hnc h
    · exact hnf h
  · simp only [interface_export_names, List.mem_append]
    rintro (h | h)
    · exact hnc h
    · exact hnf h
  · refine ⟨{ path := .inFolder "main"
              members := []
              content := main_unit_content (get_imports m.body)
                ((topUsed m.body).filter (fun x => decide (x ∈ classNamesOf m)))
                ((topUsed m.body).filter (fun x => decide (x ∈ functionNamesOf m)))
                (top_level_code m)
              isUnit := false }, ?_, rfl, rfl⟩
    refine List.mem_append_left _ (List.mem_append_right _ ?_)
    simp [main_writes, hmainne]

/-- Concrete module for the C9 scenario: a single top-level `async def`. -/
def exM9 : PyModule :=
  { body := [.asyncFuncDef "ag" none 1 (some 2) (.node [])],
    lines := ["async def ag():", "    pass"] }

/-- Witness for C9 at the concrete scenario. -/
theorem async_def_not_extracted_witness :
    ("ag" ∉ classNamesOf exM9) ∧ ("ag" ∉ functionNamesOf exM9) ∧
    find_top_level_defs exM9.body = find_top_level_defs [] ∧
    "ag" ∉ init_export_names (classNamesOf exM9) (functionNamesOf exM9) ∧
    "ag" ∉ interface_export_names (classNamesOf exM9) (functionNamesOf exM9) ∧
    (∃ w ∈ write_split_files_plan exM9 "sample" none,
      w.path = OutPath.inFolder "main" ∧
      w.content = main_unit_content (get_imports exM9.body)
        ((topUsed exM9.body).filter (fun x => decide (x ∈ classNamesOf exM9)))
        ((topUsed exM9.body).filter (fun x => decide (x ∈ functionNamesOf exM9)))
        (top_level_code exM9)) := by
  have h := async_def_not_extracted exM9 "sample" "ag" none 1 2 (PyNode.node [])
    [] [] rfl (by decide) (by decide) (by decide) (fun i h1 h2 => rfl)
    (by decide) (by decide) (by decide)
  exact ⟨by decide, by decide, h.1, h.2.2.1, h.2.2.2.1, h.2.2.2.2.2⟩

/-- C8 (amended): in default mode with a module docstring and no
functions, the residual file is the minimal file whose content starts
with the docstring (re-rendered in triple quotes) followed by a blank
line, the original imports, and one re-export import line per class — the
docstring is not its only content once any class or import exists — and
no shared functions unit file is emitted. -/
theorem residual_docstring_spec (m : PyModule) (base ds : String)
    (hdoc : m.body.head? = some (TopStmt.exprConstStr ds))
    (hfn : functionsOf m = [])
    (hnc : "functions" ∉ classNamesOf m)
    (hbase : base ≠ "functions") :
    (∃ w ∈ write_split_files_plan m base none, w.path = OutPath.inFolder base ∧
      w.isUnit = false ∧
      w.content = String.intercalate "\n" (["\"\"\"" ++ ds ++ "\"\"\"", ""] ++
        (if (get_imports m.body).isEmpty then [] else get_imports m.body ++ [""]) ++
        (classNamesOf m).map (fun cn => "from ." ++ cn ++ " import " ++ cn)) ++ "\n") ∧
    (∀ w ∈ write_split_files_plan m base none, w.path ≠ OutPath.inFolder "functions") := by
  have hfnames : functionNamesOf m = [] := by simp [functionNamesOf, hfn]
  have hds : extract_module_docstring m.body = some ("\"\"\"" ++ ds ++ "\"\"\"") := by
    simp [extract_module_docstring, hdoc]
  have hrem : (classesOf m).filter
      (fun d => decide (d.1 ∉ (splitSets none (classNamesOf m) (functionNamesOf m)).1)) = [] := by
    rw [List.filter_eq_nil_iff]
    intro d hd
    have hdm : d.1 ∈ classNamesOf m := List.mem_map.mpr ⟨d, hd, rfl⟩
    simp [splitSets, hdm]
  have hcontent : create_shrunk_original m.body m.lines (get_imports m.body)
      (classesOf m) (functionsOf m) none (classNamesOf m) (functionNamesOf m) =
      String.intercalate "\n" (["\"\"\"" ++ ds ++ "\"\"\"", ""] ++
        (if (get_imports m.body).isEmpty then [] else get_imports m.body ++ [""]) ++
        (classNamesOf m).map (fun cn => "from ." ++ cn ++ " import " ++ cn)) ++ "\n" := by
    simp only [create_shrunk_original]
    rw [hrem, hfn]
    simp only [List.filter_nil, List.isEmpty_nil, Bool.and_self, if_true]
    simp [shrunkMinimal, hds, hfnames]
  constructor
  · exact ⟨residual_write m base none, List.mem_append_left _ (List.mem_append_left _
      (List.mem_append_left _ (by simp))), rfl, rfl, hcontent⟩
  · intro w hw
    simp only [write_split_files_plan, unit_writes, List.mem_append, List.mem_cons,
      List.mem_singleton, List.not_mem_nil, or_false, false_or] at hw
    rcases hw with ((hw | hw) | hw) | hw | hw
    · subst hw
      simp only [residual_write]
      intro hcon
      simp only [OutPath.inFolder.injEq] at hcon
      exact hbase hcon
    · rcases hw with hw | hw
      · obtain ⟨dd, hdd, hpath⟩ := class_unit_writes_path m w hw
        rw [hpath]
        intro hcon
        simp only [OutPath.inFolder.injEq] at hcon
        exact hnc (hcon ▸ List.mem_map.mpr ⟨dd, hdd, rfl⟩)
      · rw [hfn] at hw
        simp at hw
    · unfold main_writes at hw
      split at hw
      · simp at hw
      · simp only [List.mem_singleton] at hw
        subst hw
        simp
    · subst hw; simp [init_write]
    · subst hw; simp [interface_write]

/-- Concrete module for the C8 scenario: a docstring and one class, no
imports, no functions. -/
def exM8 : PyModule :=
  { body := [.exprConstStr "Module docstring.", .classDef "A" none 2 (some 3) (.node [])],
    lines := ["\"\"\"Module docstring.\"\"\"", "class A:", "    pass"] }

/-- Counterexample to C8 as stated: the residual file's content is the
docstring plus a re-export import line, not the docstring alone. -/
theorem residual_docstring_cex :
    (∃ w ∈ write_split_files_plan exM8 "sample" none,
      w.path = OutPath.inFolder "sample" ∧
      w.content = "\"\"\"Module docstring.\"\"\"\n\nfrom .A import A\n") ∧
    ("\"\"\"Module docstring.\"\"\"\n\nfrom .A import A\n" ≠
      "\"\"\"Module docstring.\"\"\"") ∧
    ("\"\"\"Module docstring.\"\"\"\n\nfrom .A import A\n" ≠
      "\"\"\"Module docstring.\"\"\"\n") := by
  decide

/-- Witness for the amended C8 at the concrete scenario. -/
theorem residual_docstring_spec_witness :
    exM8.body.head? = some (TopStmt.exprConstStr "Module docstring.") ∧
    functionsOf exM8 = [] ∧
    ((∃ w ∈ write_split_files_plan exM8 "sample" none,
      w.path = OutPath.inFolder "sample" ∧ w.isUnit = false ∧
      w.content = String.intercalate "\n" (["\"\"\"" ++ "Module docstring." ++ "\"\"\"", ""] ++
        (if (get_imports exM8.body).isEmpty then [] else get_imports exM8.body ++ [""]) ++
        (classNamesOf exM8).map (fun cn => "from ." ++ cn ++ " import " ++ cn)) ++ "\n") ∧
    (∀ w ∈ write_split_files_plan exM8 "sample" none,
      w.path ≠ OutPath.inFolder "functions")) := by
  exact ⟨rfl, rfl,
    residual_docstring_spec exM8 "sample" "Module docstring." rfl rfl (by decide) (by decide)⟩

/-- In a write list with pairwise-distinct paths, `find?` by path finds
each write itself. -/
theorem find_path_of_nodup :
    ∀ (ws : List FileWrite), ((ws.map FileWrite.path).Nodup) → ∀ w ∈ ws,
      ws.find? (fun x => decide (x.path = w.path)) = some w := by
  intro ws
  induction ws with
  | nil => intro _ w hw; simp at hw
  | cons a t ih =>
    intro hnodup w hw
    rw [List.map_cons, List.nodup_cons] at hnodup
    rcases List.mem_cons.mp hw with rfl | hw
    · rw [List.find?_cons_of_pos _ (by simp)]
    · have hne : a.path ≠ w.path := by
        intro hcon
        exact hnodup.1 (hcon ▸ List.mem_map.mpr ⟨w, hw, rfl⟩)
      rw [List.find?_cons_of_neg _ (by simp [hne])]
      exact ih hnodup.2 w hw

/-- With pairwise-distinct paths there is no overwriting: the final
content of each write's path is that write. -/
theorem last_write_of_nodup {ws : List FileWrite}
    (h : (ws.map FileWrite.path).Nodup) {w : FileWrite} (hw : w ∈ ws) :
    last_write ws w.path = some w := by
  unfold last_write
  refine find_path_of_nodup ws.reverse ?_ w (List.mem_reverse.mpr hw)
  rw [List.map_reverse]
  exact List.nodup_reverse.mpr h

/-- With pairwise-distinct paths, `final_members` at a write's path is
that write's member list. -/
theorem final_members_of_nodup {ws : List FileWrite}
    (h : (ws.map FileWrite.path).Nodup) {w : FileWrite} (hw : w ∈ ws) :
    final_members ws w.path = w.members := by
  rw [final_members, last_write_of_nodup h hw]

/-- A name in some final file comes from some write to that path. -/
theorem mem_final_members {ws : List FileWrite} {p : OutPath} {n : String}
    (h : n ∈ final_members ws p) : ∃ w ∈ ws, w.path = p ∧ n ∈ w.members := by
  unfold final_members last_write at h
  cases hf : ws.reverse.find? (fun x => decide (x.path = p)) with
  | none => rw [hf] at h; simp at h
  | some w =>
      rw [hf] at h
      have hmem := List.mem_reverse.mp (List.mem_of_find?_eq_some hf)
      have hpred := List.find?_some hf
      exact ⟨w, hmem, of_decide_eq_true hpred, h⟩

/-- Membership in an end-line-guarded `filterMap` of writes. -/
theorem mem_filterMap_ends (f : DefEntry → Nat → FileWrite) :
    ∀ (cs : List DefEntry) (w : FileWrite),
      (w ∈ cs.filterMap (fun d => match d.2.2 with
        | none => none
        | some e => some (f d e)) ↔ ∃ d ∈ cs, ∃ e, d.2.2 = some e ∧ w = f d e) := by
  intro cs w
  rw [List.mem_filterMap]
  constructor
  · rintro ⟨d, hd, hf2⟩
    cases he : d.2.2 with
    | none => rw [he] at hf2; simp at hf2
    | some e =>
        rw [he] at hf2
        simp only [Option.some.injEq] at hf2
        exact ⟨d, hd, e, he, hf2.symm⟩
  · rintro ⟨d, hd, e, he, rfl⟩
    exact ⟨d, hd, by rw [he]⟩

/-- Path map of an end-line-guarded `filterMap` of writes, when every
entry has an end line. -/
theorem map_path_filterMap_ends (f : DefEntry → Nat → FileWrite)
    (hf : ∀ d e, (f d e).path = OutPath.inFolder d.1) :
    ∀ (cs : List DefEntry), (∀ dd ∈ cs, dd.2.2.isSome = true) →
      ((cs.filterMap (fun d => match d.2.2 with
        | none => none
        | some e => some (f d e))).map FileWrite.path =
        cs.map (fun d => OutPath.inFolder d.1)) := by
  intro cs
  induction cs with
  | nil => intro _; rfl
  | cons d t ih =>
    intro h
    have hd := h d (by simp)
    cases he : d.2.2 with
    | none => rw [he] at hd; simp at hd
    | some e =>
        simp only [List.filterMap_cons, he, List.map_cons]
        rw [hf]
        have := ih (fun dd hdd => h dd (by simp [hdd]))
        rw [this]

/-- Membership characterization of the default-mode class unit writes. -/
theorem mem_class_unit_writes (m : PyModule) (w : FileWrite) :
    w ∈ class_unit_writes m ↔ ∃ d ∈ classesOf m, ∃ e, d.2.2 = some e ∧
      w = { path := OutPath.inFolder d.1, members := [d.1],
            content := class_unit_content (get_imports m.body) m.lines
              (classUsedLookup m.body (classNamesOf m) (functionNamesOf m) d.1).1
              (classUsedLookup m.body (classNamesOf m) (functionNamesOf m) d.1).2
              d.2.1 e,
            isUnit := true } := by
  exact mem_filterMap_ends _ (classesOf m) w

/-- Path map of the default-mode class unit writes. -/
theorem class_unit_writes_map_path (m : PyModule)
    (hEnds : ∀ dd ∈ classesOf m, dd.2.2.isSome = true) :
    (class_unit_writes m).map FileWrite.path = (classNamesOf m).map OutPath.inFolder := by
  have h := map_path_filterMap_ends
    (fun d e =>
      { path := OutPath.inFolder d.1
        members := [d.1]
        content := class_unit_content (get_imports m.body) m.lines
          (classUsedLookup m.body (classNamesOf m) (functionNamesOf m) d.1).1
          (classUsedLookup m.body (classNamesOf m) (functionNamesOf m) d.1).2
          d.2.1 e
        isUnit := true })
    (fun d e => rfl) (classesOf m) hEnds
  rw [show (classNamesOf m).map OutPath.inFolder =
    (classesOf m).map (fun d => OutPath.inFolder d.1) by
      simp [classNamesOf, List.map_map]]
  exact h

/-- The residual of a default-mode split retains no declaration: every
declaration is split out. -/
theorem residual_members_default (m : PyModule) :
    residual_members (classesOf m) (functionsOf m) none (classNamesOf m)
      (functionNamesOf m) = [] := by
  unfold residual_members
  rw [if_pos]
  simp only [Bool.and_eq_true, List.isEmpty_iff]
  constructor
  · rw [List.filter_eq_nil_iff]
    intro d hd
    have hdm : d.1 ∈ classNamesOf m := List.mem_map.mpr ⟨d, hd, rfl⟩
    simp [splitSets, hdm]
  · rw [List.filter_eq_nil_iff]
    intro d hd
    have hdm : d.1 ∈ functionNamesOf m := List.mem_map.mpr ⟨d, hd, rfl⟩
    simp [splitSets, hdm]

/-- The path list of the default-mode emission plan. -/
theorem default_plan_paths (m : PyModule) (base : String)
    (hEnds : ∀ dd ∈ classesOf m, dd.2.2.isSome = true) :
    (write_split_files_plan m base none).map FileWrite.path =
      [OutPath.inFolder base] ++ (classNamesOf m).map OutPath.inFolder ++
      (if (functionsOf m).isEmpty then [] else [OutPath.inFolder "functions"]) ++
      (if (top_level_code m).isEmpty then [] else [OutPath.inFolder "main"]) ++
      [OutPath.inFolder "__init__", OutPath.atRoot base] := by
  simp only [write_split_files_plan, unit_writes, main_writes, List.map_append]
  rw [class_unit_writes_map_path m hEnds]
  by_cases hf : (functionsOf m).isEmpty <;>
    by_cases ht : (top_level_code m).isEmpty <;>
    simp [hf, ht, residual_write, functions_unit_write, init_write, interface_write]

/-- The path list of the config-mode emission plan. -/
theorem config_plan_paths (m : PyModule) (base : String) (c : GroupConfig) :
    (write_split_files_plan m base (some c)).map FileWrite.path =
      [OutPath.inFolder base] ++ (c.modules.map (fun mdl => OutPath.inFolder mdl.1)) ++
      (if (top_level_code m).isEmpty then [] else [OutPath.inFolder "main"]) ++
      [OutPath.inFolder "__init__", OutPath.atRoot base] := by
  simp only [write_split_files_plan, unit_writes, main_writes, List.map_append]
  by_cases ht : (top_level_code m).isEmpty <;>
    simp [ht, residual_write, module_write, init_write, interface_write, List.map_map,
      Function.comp]

/-- Pairwise-distinct paths for the default-mode plan under the naming
sanity preconditions. -/
theorem default_plan_nodup (m : PyModule) (base : String)
    (hEnds : ∀ dd ∈ classesOf m, dd.2.2.isSome = true)
    (hNodupC : (classNamesOf m).Nodup)
    (hRes : ∀ x ∈ classNamesOf m, x ≠ "functions" ∧ x ≠ "main" ∧ x ≠ "__init__" ∧ x ≠ base)
    (hbase : base ≠ "functions" ∧ base ≠ "main" ∧ base ≠ "__init__") :
    ((write_split_files_plan m base none).map FileWrite.path).Nodup := by
  rw [default_plan_paths m base hEnds]
  have hinj : Function.Injective OutPath.inFolder := fun a b h => by simpa using h
  have hfull : ([OutPath.inFolder base] ++ (classNamesOf m).map OutPath.inFolder ++
      [OutPath.inFolder "functions"] ++ [OutPath.inFolder "main"] ++
      [OutPath.inFolder "__init__", OutPath.atRoot base]).Nodup := by
    have hshape : ([OutPath.inFolder base] ++ (classNamesOf m).map OutPath.inFolder ++
        [OutPath.inFolder "functions"] ++ [OutPath.inFolder "main"] ++
        [OutPath.inFolder "__init__", OutPath.atRoot base]) =
        OutPath.inFolder base :: ((classNamesOf m).map OutPath.inFolder ++
          ([OutPath.inFolder "functions"] ++ ([OutPath.inFolder "main"] ++
          [OutPath.inFolder "__init__", OutPath.atRoot base]))) := by
      simp
    rw [hshape, List.nodup_cons]
    refine ⟨?_, ?_⟩
    · intro hcon
      simp only [List.mem_append, List.mem_map, List.mem_cons, List.mem_singleton,
        List.not_mem_nil, or_false, OutPath.inFolder.injEq] at hcon
      rcases hcon with hcon | hcon | hcon | hcon | hcon
      all_goals first
        | (obtain ⟨x, hx, rfl⟩ := hcon; exact (hRes x hx).2.2.2 rfl)
        | exact (hRes base hcon).2.2.2 rfl
        | exact hbase.1 hcon
        | exact hbase.2.1 hcon
        | exact hbase.2.2 hcon
        | simp at hcon
    · have htail : ([OutPath.inFolder "functions"] ++ ([OutPath.inFolder "main"] ++
          [OutPath.inFolder "__init__", OutPath.atRoot base])).Nodup := by
        simp only [List.singleton_append, List.nodup_cons, List.mem_cons,
          List.mem_singleton, List.not_mem_nil, or_false, List.nodup_nil, and_true,
          OutPath.inFolder.injEq]
        refine ⟨?_, ?_, ?_⟩ <;> simp
      refine List.Nodup.append (hNodupC.map hinj) htail ?_
      intro a ha hb
      obtain ⟨x, hx, rfl⟩ := List.mem_map.mp ha
      simp only [List.mem_append, List.mem_cons, List.mem_singleton, List.not_mem_nil,
        or_false] at hb
      rcases hb with hb | hb | hb | hb <;>
        first
          | exact (hRes x hx).1 (hinj hb)
          | exact (hRes x hx).2.1 (hinj hb)
          | exact (hRes x hx).2.2.1 (hinj hb)
          | cases hb
  by_cases hf : (functionsOf m).isEmpty <;> by_cases ht : (top_level_code m).isEmpty
  · simp only [hf, ht, if_true]
    refine List.Nodup.sublist ?_ hfull
    exact List.Sublist.append (List.Sublist.append (List.Sublist.append
      (List.Sublist.refl _) (List.nil_sublist _)) (List.nil_sublist _))
      (List.Sublist.refl _)
  · simp only [hf, ht, if_true, Bool.false_eq_true, if_false]
    refine List.Nodup.sublist ?_ hfull
    exact List.Sublist.append (List.Sublist.append (List.Sublist.append
      (List.Sublist.refl _) (List.nil_sublist _)) (List.Sublist.refl _))
      (List.Sublist.refl _)
  · simp only [hf, ht, if_true, Bool.false_eq_true, if_false]
    refine List.Nodup.sublist ?_ hfull
    exact List.Sublist.append (List.Sublist.append (List.Sublist.append
      (List.Sublist.refl _) (List.Sublist.refl _)) (List.nil_sublist _))
      (List.Sublist.refl _)
  · simp only [hf, ht, Bool.false_eq_true, if_false]
    exact hfull

/-- Pairwise-distinct paths for the config-mode plan under the naming
sanity preconditions. -/
theorem config_plan_nodup (m : PyModule) (base : String) (c : GroupConfig)
    (hModNodup : (c.modules.map (fun mdl => mdl.1)).Nodup)
    (hModRes : ∀ mdl ∈ c.modules, mdl.1 ≠ base ∧ mdl.1 ≠ "main" ∧ mdl.1 ≠ "__init__")
    (hbase : base ≠ "main" ∧ base ≠ "__init__") :
    ((write_split_files_plan m base (some c)).map FileWrite.path).Nodup := by
  rw [config_plan_paths m base c]
  have hinj : Function.Injective OutPath.inFolder := fun a b h => by simpa using h
  have hmap : c.modules.map (fun mdl => OutPath.inFolder mdl.1) =
      (c.modules.map (fun mdl => mdl.1)).map OutPath.inFolder := by
    simp [List.map_map]
  have hfull : ([OutPath.inFolder base] ++
      c.modules.map (fun mdl => OutPath.inFolder mdl.1) ++
      [OutPath.inFolder "main"] ++
      [OutPath.inFolder "__init__", OutPath.atRoot base]).Nodup := by
    have hshape : ([OutPath.inFolder base] ++
        c.modules.map (fun mdl => OutPath.inFolder mdl.1) ++
        [OutPath.inFolder "main"] ++
        [OutPath.inFolder "__init__", OutPath.atRoot base]) =
        OutPath.inFolder base :: (c.modules.map (fun mdl => OutPath.inFolder mdl.1) ++
          ([OutPath.inFolder "main"] ++
          [OutPath.inFolder "__init__", OutPath.atRoot base])) := by
      simp
    rw [hshape, List.nodup_cons]
    refine ⟨?_, ?_⟩
    · intro hcon
      simp only [List.mem_append, List.mem_map, List.mem_cons, List.mem_singleton,
        List.not_mem_nil, or_false, OutPath.inFolder.injEq] at hcon
      rcases hcon with hcon | hcon | hcon | hcon
      all_goals first
        | (obtain ⟨mdl, hmdl, heq⟩ := hcon; exact (hModRes mdl hmdl).1 heq)
        | exact hbase.1 hcon
        | exact hbase.2 hcon
        | simp at hcon
    · have htail : ([OutPath.inFolder "main"] ++
          [OutPath.inFolder "__init__", OutPath.atRoot base]).Nodup := by
        simp only [List.singleton_append, List.nodup_cons, List.mem_cons,
          List.mem_singleton, List.not_mem_nil, or_false, List.nodup_nil, and_true,
          OutPath.inFolder.injEq]
        refine ⟨?_, ?_⟩ <;> simp
      refine List.Nodup.append ?_ htail ?_
      · rw [hmap]
        exact hModNodup.map hinj
      · intro a ha hb
        obtain ⟨mdl, hmdl, rfl⟩ := List.mem_map.mp ha
        simp only [List.mem_append, List.mem_cons, List.mem_singleton, List.not_mem_nil,
          or_false] at hb
        rcases hb with hb | hb | hb <;>
          first
            | exact (hModRes mdl hmdl).2.1 (hinj hb)
            | exact (hModRes mdl hmdl).2.2 (hinj hb)
            | simp at hb
  by_cases ht : (top_level_code m).isEmpty
  · simp only [ht, if_true]
    refine List.Nodup.sublist ?_ hfull
    exact List.Sublist.append (List.Sublist.append
      (List.Sublist.refl _) (List.nil_sublist _)) (List.Sublist.refl _)
  · simp only [ht, Bool.false_eq_true, if_false]
    exact hfull

/-- Writes in `main_writes` embed no declaration. -/
theorem main_writes_members (m : PyModule) : ∀ w ∈ main_writes m, w.members = [] := by
  intro w h
  unfold main_writes at h
  split at h
  · simp at h
  · simp only [List.mem_singleton] at h
    subst h
    rfl

/-- Case analysis on membership in the default-mode plan. -/
theorem default_plan_mem (m : PyModule) (base : String) :
    ∀ w ∈ write_split_files_plan m base none,
      w = residual_write m base none ∨ w ∈ class_unit_writes m ∨
      ((functionsOf m).isEmpty = false ∧ w = functions_unit_write m) ∨
      w ∈ main_writes m ∨ w = init_write m none ∨ w = interface_write m base none := by
  intro w hw
  simp only [write_split_files_plan, unit_writes, List.mem_append, List.mem_cons,
    List.mem_singleton, List.not_mem_nil, or_false, false_or] at hw
  rcases hw with ((hw | hw) | hw) | hw | hw
  · exact Or.inl hw
  · rcases hw with hw | hw
    · exact Or.inr (Or.inl hw)
    · by_cases hf : (functionsOf m).isEmpty
      · simp [hf] at hw
      · simp only [hf, Bool.false_eq_true, if_false, List.mem_singleton] at hw
        exact Or.inr (Or.inr (Or.inl ⟨by simpa using hf, hw⟩))
  · exact Or.inr (Or.inr (Or.inr (Or.inl hw)))
  · exact Or.inr (Or.inr (Or.inr (Or.inr (Or.inl hw))))
  · exact Or.inr (Or.inr (Or.inr (Or.inr (Or.inr hw))))

/-- The class unit writes are in the plan. -/
theorem class_unit_writes_sub_plan (m : PyModule) (base : String) :
    ∀ w ∈ class_unit_writes m, w ∈ write_split_files_plan m base none := by
  intro w hw
  refine List.mem_append_left _ (List.mem_append_left _ (List.mem_append_right _ ?_))
  simp only [unit_writes]
  exact List.mem_append_left _ hw

/-- The shared functions write is in the plan when functions exist. -/
theorem functions_write_in_plan (m : PyModule) (base : String)
    (hf : (functionsOf m).isEmpty = false) :
    functions_unit_write m ∈ write_split_files_plan m base none := by
  refine List.mem_append_left _ (List.mem_append_left _ (List.mem_append_right _ ?_))
  simp only [unit_writes]
  refine List.mem_append_right _ ?_
  simp [hf]

/-- Default-mode completeness and unit-disjointness, under the naming
sanity preconditions. -/
theorem split_completeness_default_aux (m : PyModule) (base : String)
    (hEnds : ∀ dd ∈ classesOf m ++ functionsOf m, dd.2.2.isSome = true)
    (hNodupC : (classNamesOf m).Nodup)
    (hDisj : ∀ x ∈ classNamesOf m, x ∉ functionNamesOf m)
    (hRes : ∀ x ∈ classNamesOf m, x ≠ "functions" ∧ x ≠ "main" ∧ x ≠ "__init__" ∧ x ≠ base)
    (hbase : base ≠ "functions" ∧ base ≠ "main" ∧ base ≠ "__init__") :
    (∀ n, (∃ p, n ∈ final_members (write_split_files_plan m base none) p) ↔
      (n ∈ classNamesOf m ∨ n ∈ functionNamesOf m)) ∧
    (∀ n w1 w2, w1 ∈ write_split_files_plan m base none →
      w2 ∈ write_split_files_plan m base none → w1.isUnit = true → w2.isUnit = true →
      w1.path ≠ w2.path → n ∈ w1.members → n ∈ w2.members → False) := by
  have hnodup := default_plan_nodup m base
    (fun dd hdd => hEnds dd (List.mem_append_left _ hdd)) hNodupC hRes hbase
  have hunitcase : ∀ w ∈ write_split_files_plan m base none, w.isUnit = true →
      w ∈ class_unit_writes m ∨
      ((functionsOf m).isEmpty = false ∧ w = functions_unit_write m) := by
    intro w hw hu
    rcases default_plan_mem m base w hw with h | h | h | h | h | h
    · subst h; simp [residual_write] at hu
    · exact Or.inl h
    · exact Or.inr h
    · simp [main_writes_isUnit m w h] at hu
    · subst h; simp [init_write] at hu
    · subst h; simp [interface_write] at hu
  constructor
  · intro n
    constructor
    · rintro ⟨p, hp⟩
      obtain ⟨w, hw, hwp, hnmem⟩ := mem_final_members hp
      rcases default_plan_mem m base w hw with h | h | h | h | h | h
      · subst h
        simp only [residual_write, residual_members_default] at hnmem
        simp at hnmem
      · obtain ⟨d, hd, e, he, rfl⟩ := (mem_class_unit_writes m w).mp h
        simp only [List.mem_singleton] at hnmem
        subst hnmem
        exact Or.inl (List.mem_map.mpr ⟨d, hd, rfl⟩)
      · obtain ⟨hf, rfl⟩ := h
        simp only [functions_unit_write] at hnmem
        obtain ⟨dd, hdd, hsome⟩ := List.mem_filterMap.mp hnmem
        by_cases hs : dd.2.2.isSome
        · rw [if_pos hs] at hsome
          simp only [Option.some.injEq] at hsome
          exact Or.inr (hsome ▸ List.mem_map.mpr ⟨dd, hdd, rfl⟩)
        · rw [if_neg hs] at hsome
          simp at hsome
      · rw [main_writes_members m w h] at hnmem
        simp at hnmem
      · subst h; simp [init_write] at hnmem
      · subst h; simp [interface_write] at hnmem
    · intro hn
      rcases hn with hn | hn
      · obtain ⟨d, hd, rfl⟩ := List.mem_map.mp hn
        have hde := hEnds d (List.mem_append_left _ hd)
        obtain ⟨e, he⟩ := Option.isSome_iff_exists.mp hde
        set w : FileWrite :=
          { path := OutPath.inFolder d.1
            members := [d.1]
            content := class_unit_content (get_imports m.body) m.lines
              (classUsedLookup m.body (classNamesOf m) (functionNamesOf m) d.1).1
              (classUsedLookup m.body (classNamesOf m) (functionNamesOf m) d.1).2
              d.2.1 e
            isUnit := true } with hwdef
        have hwmem : w ∈ class_unit_writes m :=
          (mem_class_unit_writes m w).mpr ⟨d, hd, e, he, rfl⟩
        have hwplan := class_unit_writes_sub_plan m base w hwmem
        refine ⟨w.path, ?_⟩
        rw [final_members_of_nodup hnodup hwplan, hwdef]
        simp
      · obtain ⟨d, hd, rfl⟩ := List.mem_map.mp hn
        have hf : (functionsOf m).isEmpty = false := by
          rcases hfo : functionsOf m with _ | _
          · rw [hfo] at hd; simp at hd
          · rfl
        have hwplan := functions_write_in_plan m base hf
        refine ⟨(functions_unit_write m).path, ?_⟩
        rw [final_members_of_nodup hnodup hwplan]
        simp only [functions_unit_write]
        refine List.mem_filterMap.mpr ⟨d, hd, ?_⟩
        rw [if_pos (hEnds d (List.mem_append_right _ hd))]
  · intro n w1 w2 hw1 hw2 hu1 hu2 hne h1 h2
    rcases hunitcase w1 hw1 hu1 with hc1 | ⟨hf1, rfl⟩
    · obtain ⟨d1, hd1, e1, he1, rfl⟩ := (mem_class_unit_writes m w1).mp hc1
      simp only [List.mem_singleton] at h1
      subst h1
      rcases hunitcase w2 hw2 hu2 with hc2 | ⟨hf2, rfl⟩
      · obtain ⟨d2, hd2, e2, he2, rfl⟩ := (mem_class_unit_writes m w2).mp hc2
        simp only [List.mem_singleton] at h2
        exact hne (by simp [h2])
      · simp only [functions_unit_write] at h2
        obtain ⟨dd, hdd, hsome⟩ := List.mem_filterMap.mp h2
        have hfn : d1.1 ∈ functionNamesOf m := by
          by_cases hs : dd.2.2.isSome
          · rw [if_pos hs] at hsome
            simp only [Option.some.injEq] at hsome
            exact hsome ▸ List.mem_map.mpr ⟨dd, hdd, rfl⟩
          · rw [if_neg hs] at hsome
            simp at hsome
        exact hDisj d1.1 (List.mem_map.mpr ⟨d1, hd1, rfl⟩) hfn
    · rcases hunitcase w2 hw2 hu2 with hc2 | ⟨hf2, rfl⟩
      · obtain ⟨d2, hd2, e2, he2, rfl⟩ := (mem_class_unit_writes m w2).mp hc2
        simp only [List.mem_singleton] at h2
        subst h2
        simp only [functions_unit_write] at h1
        obtain ⟨dd, hdd, hsome⟩ := List.mem_filterMap.mp h1
        have hfn : d2.1 ∈ functionNamesOf m := by
          by_cases hs : dd.2.2.isSome
          · rw [if_pos hs] at hsome
            simp only [Option.some.injEq] at hsome
            exact hsome ▸ List.mem_map.mpr ⟨dd, hdd, rfl⟩
          · rw [if_neg hs] at hsome
            simp at hsome
        exact hDisj d2.1 (List.mem_map.mpr ⟨d2, hd2, rfl⟩) hfn
      · exact hne rfl

/-- Case analysis on membership in the config-mode plan. -/
theorem config_plan_mem (m : PyModule) (base : String) (c : GroupConfig) :
    ∀ w ∈ write_split_files_plan m base (some c),
      w = residual_write m base (some c) ∨
      (∃ mdl ∈ c.modules, w = module_write m mdl) ∨
      w ∈ main_writes m ∨ w = init_write m (some c) ∨
      w = interface_write m base (some c) := by
  intro w hw
  simp only [write_split_files_plan, unit_writes, List.mem_append, List.mem_cons,
    List.mem_singleton, List.not_mem_nil, or_false, false_or] at hw
  rcases hw with ((hw | hw) | hw) | hw | hw
  · exact Or.inl hw
  · obtain ⟨mdl, hmdl, hwe⟩ := List.mem_map.mp hw
    exact Or.inr (Or.inl ⟨mdl, hmdl, hwe.symm⟩)
  · exact Or.inr (Or.inr (Or.inl hw))
  · exact Or.inr (Or.inr (Or.inr (Or.inl hw)))
  · exact Or.inr (Or.inr (Or.inr (Or.inr hw)))

/-- Each group module write is in the config-mode plan. -/
theorem module_write_in_plan (m : PyModule) (base : String) (c : GroupConfig)
    (mdl : String × List String × List String) (hmdl : mdl ∈ c.modules) :
    module_write m mdl ∈ write_split_files_plan m base (some c) := by
  refine List.mem_append_left _ (List.mem_append_left _ (List.mem_append_right _ ?_))
  simp only [unit_writes]
  exact List.mem_map.mpr ⟨mdl, hmdl, rfl⟩

/-- The residual write is in the plan. -/
theorem residual_in_plan (m : PyModule) (base : String) (cfg : Option GroupConfig) :
    residual_write m base cfg ∈ write_split_files_plan m base cfg := by
  refine List.mem_append_left _ (List.mem_append_left _ (List.mem_append_left _ ?_))
  simp

/-- Config-mode completeness and unit-disjointness, under the precondition
that each name appears in at most one group and the naming sanity
preconditions. -/
theorem split_completeness_config_aux (m : PyModule) (base : String) (c : GroupConfig)
    (hEnds : ∀ dd ∈ classesOf m ++ functionsOf m, dd.2.2.isSome = true)
    (hModNodup : (c.modules.map (fun mdl => mdl.1)).Nodup)
    (hOnce : ∀ x mdl1 mdl2, mdl1 ∈ c.modules → mdl2 ∈ c.modules →
      x ∈ mdl1.2.1 ++ mdl1.2.2 → x ∈ mdl2.2.1 ++ mdl2.2.2 → mdl1 = mdl2)
    (hModRes : ∀ mdl ∈ c.modules, mdl.1 ≠ base ∧ mdl.1 ≠ "main" ∧ mdl.1 ≠ "__init__")
    (hbase : base ≠ "main" ∧ base ≠ "__init__") :
    (∀ n, (∃ p, n ∈ final_members (write_split_files_plan m base (some c)) p) ↔
      (n ∈ classNamesOf m ∨ n ∈ functionNamesOf m)) ∧
    (∀ n w1 w2, w1 ∈ write_split_files_plan m base (some c) →
      w2 ∈ write_split_files_plan m base (some c) → w1.isUnit = true → w2.isUnit = true →
      w1.path ≠ w2.path → n ∈ w1.members → n ∈ w2.members → False) := by
  have hnodup := config_plan_nodup m base c hModNodup hModRes hbase
  constructor
  · intro n
    constructor
    · rintro ⟨p, hp⟩
      obtain ⟨w, hw, hwp, hnmem⟩ := mem_final_members hp
      rcases config_plan_mem m base c w hw with h | h | h | h | h
      · subst h
        simp only [residual_write, residual_members] at hnmem
        split at hnmem
        · simp at hnmem
        · obtain ⟨d, hd, hsome⟩ := List.mem_filterMap.mp hnmem
          have hdn : d.1 = n := by
            by_cases hs : d.2.2.isSome
            · rw [if_pos hs] at hsome
              simpa using hsome
            · rw [if_neg hs] at hsome
              simp at hsome
          rcases List.mem_append.mp hd with hd2 | hd2
          · exact Or.inl (hdn ▸ List.mem_map.mpr ⟨d, (List.mem_filter.mp hd2).1, rfl⟩)
          · exact Or.inr (hdn ▸ List.mem_map.mpr ⟨d, (List.mem_filter.mp hd2).1, rfl⟩)
      · obtain ⟨mdl, hmdl, rfl⟩ := h
        simp only [module_write, module_unit_members] at hnmem
        rcases List.mem_append.mp hnmem with h2 | h2
        · have := List.mem_filter.mp h2
          exact Or.inl (by simpa using (Bool.and_eq_true _ _ |>.mp this.2).1)
        · have := List.mem_filter.mp h2
          exact Or.inr (by simpa using (Bool.and_eq_true _ _ |>.mp this.2).1)
      · rw [main_writes_members m w h] at hnmem
        simp at hnmem
      · subst h; simp [init_write] at hnmem
      · subst h; simp [interface_write] at hnmem
    · intro hn
      rcases hn with hn | hn
      · obtain ⟨d, hd, rfl⟩ := List.mem_map.mp hn
        have hde := hEnds d (List.mem_append_left _ hd)
        by_cases hsplit : d.1 ∈ (splitSets (some c) (classNamesOf m) (functionNamesOf m)).1
        · simp only [splitSets] at hsplit
          obtain ⟨mdl, hmdl, hnm⟩ := List.mem_flatMap.mp hsplit
          refine ⟨(module_write m mdl).path, ?_⟩
          rw [final_members_of_nodup hnodup (module_write_in_plan m base c mdl hmdl)]
          simp only [module_write, module_unit_members]
          refine List.mem_append_left _ (List.mem_filter.mpr ⟨hnm, ?_⟩)
          have hfind : ((classesOf m).find? (fun dd => dd.1 == d.1 && dd.2.2.isSome)).isSome := by
            rw [List.find?_isSome]
            exact ⟨d, hd, by simp [hde]⟩
          simp [hn, hfind]
        · refine ⟨(residual_write m base (some c)).path, ?_⟩
          rw [final_members_of_nodup hnodup (residual_in_plan m base (some c))]
          simp only [residual_write, residual_members]
          have hmem : d ∈ (classesOf m).filter (fun dd => decide
              (dd.1 ∉ (splitSets (some c) (classNamesOf m) (functionNamesOf m)).1)) ++
              (functionsOf m).filter (fun dd => decide
              (dd.1 ∉ (splitSets (some c) (classNamesOf m) (functionNamesOf m)).2)) :=
            List.mem_append_left _ (List.mem_filter.mpr ⟨hd, by simp [hsplit]⟩)
          rw [if_neg (by
            simp only [Bool.and_eq_true, List.isEmpty_iff]
            rintro ⟨h1, h2⟩
            rw [h1, h2] at hmem
            simp at hmem)]
          exact List.mem_filterMap.mpr ⟨d, hmem, by simp [hde]⟩
      · obtain ⟨d, hd, rfl⟩ := List.mem_map.mp hn
        have hde := hEnds d (List.mem_append_right _ hd)
        by_cases hsplit : d.1 ∈ (splitSets (some c) (classNamesOf m) (functionNamesOf m)).2
        · simp only [splitSets] at hsplit
          obtain ⟨mdl, hmdl, hnm⟩ := List.mem_flatMap.mp hsplit
          refine ⟨(module_write m mdl).path, ?_⟩
          rw [final_members_of_nodup hnodup (module_write_in_plan m base c mdl hmdl)]
          simp only [module_write, module_unit_members]
          refine List.mem_append_right _ (List.mem_filter.mpr ⟨hnm, ?_⟩)
          have hfind : ((functionsOf m).find? (fun dd => dd.1 == d.1 && dd.2.2.isSome)).isSome := by
            rw [List.find?_isSome]
            exact ⟨d, hd, by simp [hde]⟩
          simp [hn, hfind]
        · refine ⟨(residual_write m base (some c)).path, ?_⟩
          rw [final_members_of_nodup hnodup (residual_in_plan m base (some c))]
          simp only [residual_write, residual_members]
          have hmem : d ∈ (classesOf m).filter (fun dd => decide
              (dd.1 ∉ (splitSets (some c) (classNamesOf m) (functionNamesOf m)).1)) ++
              (functionsOf m).filter (fun dd => decide
              (dd.1 ∉ (splitSets (some c) (classNamesOf m) (functionNamesOf m)).2)) :=
            List.mem_append_right _ (List.mem_filter.mpr ⟨hd, by simp [hsplit]⟩)
          rw [if_neg (by
            simp only [Bool.and_eq_true, List.isEmpty_iff]
            rintro ⟨h1, h2⟩
            rw [h1, h2] at hmem
            simp at hmem)]
          exact List.mem_filterMap.mpr ⟨d, hmem, by simp [hde]⟩
  · intro n w1 w2 hw1 hw2 hu1 hu2 hne h1 h2
    have hunit1 : ∃ mdl ∈ c.modules, w1 = module_write m mdl := by
      rcases config_plan_mem m base c w1 hw1 with h | h | h | h | h
      · subst h; simp [residual_write] at hu1
      · exact h
      · simp [main_writes_isUnit m w1 h] at hu1
      · subst h; simp [init_write] at hu1
      · subst h; simp [interface_write] at hu1
    have hunit2 : ∃ mdl ∈ c.modules, w2 = module_write m mdl := by
      rcases config_plan_mem m base c w2 hw2 with h | h | h | h | h
      · subst h; simp [residual_write] at hu2
      · exact h
      · simp [main_writes_isUnit m w2 h] at hu2
      · subst h; simp [init_write] at hu2
      · subst h; simp [interface_write] at hu2
    obtain ⟨mdl1, hmdl1, rfl⟩ := hunit1
    obtain ⟨mdl2, hmdl2, rfl⟩ := hunit2
    have hn1 : n ∈ mdl1.2.1 ++ mdl1.2.2 := by
      simp only [module_write, module_unit_members] at h1
      rcases List.mem_append.mp h1 with h | h
      · exact List.mem_append_left _ (List.mem_filter.mp h).1
      · exact List.mem_append_right _ (List.mem_filter.mp h).1
    have hn2 : n ∈ mdl2.2.1 ++ mdl2.2.2 := by
      simp only [module_write, module_unit_members] at h2
      rcases List.mem_append.mp h2 with h | h
      · exact List.mem_append_left _ (List.mem_filter.mp h).1
      · exact List.mem_append_right _ (List.mem_filter.mp h).1
    exact hne (by rw [hOnce n mdl1 mdl2 hmdl1 hmdl2 hn1 hn2])

/-- C1 (amended): under the naming sanity preconditions (all end lines
known; distinct class names that avoid the reserved unit names and are
disjoint from the function names in default mode; in config mode, every
name in at most one group and group names distinct and avoiding the
reserved names), the union of declaration names embedded in the final
emitted files equals the original top-level declaration set, and no name
is embedded in two different partition-unit files. -/
theorem split_completeness_no_duplication :
    (∀ (m : PyModule) (base : String),
      (∀ dd ∈ classesOf m ++ functionsOf m, dd.2.2.isSome = true) →
      (classNamesOf m).Nodup →
      (∀ x ∈ classNamesOf m, x ∉ functionNamesOf m) →
      (∀ x ∈ classNamesOf m, x ≠ "functions" ∧ x ≠ "main" ∧ x ≠ "__init__" ∧ x ≠ base) →
      base ≠ "functions" ∧ base ≠ "main" ∧ base ≠ "__init__" →
      ((∀ n, (∃ p, n ∈ final_members (write_split_files_plan m base none) p) ↔
        (n ∈ classNamesOf m ∨ n ∈ functionNamesOf m)) ∧
       (∀ n w1 w2, w1 ∈ write_split_files_plan m base none →
         w2 ∈ write_split_files_plan m base none → w1.isUnit = true →
         w2.isUnit = true → w1.path ≠ w2.path → n ∈ w1.members → n ∈ w2.members →
         False))) ∧
    (∀ (m : PyModule) (base : String) (c : GroupConfig),
      (∀ dd ∈ classesOf m ++ functionsOf m, dd.2.2.isSome = true) →
      (c.modules.map (fun mdl => mdl.1)).Nodup →
      (∀ x mdl1 mdl2, mdl1 ∈ c.modules → mdl2 ∈ c.modules →
        x ∈ mdl1.2.1 ++ mdl1.2.2 → x ∈ mdl2.2.1 ++ mdl2.2.2 → mdl1 = mdl2) →
      (∀ mdl ∈ c.modules, mdl.1 ≠ base ∧ mdl.1 ≠ "main" ∧ mdl.1 ≠ "__init__") →
      base ≠ "main" ∧ base ≠ "__init__" →
      ((∀ n, (∃ p, n ∈ final_members (write_split_files_plan m base (some c)) p) ↔
        (n ∈ classNamesOf m ∨ n ∈ functionNamesOf m)) ∧
       (∀ n w1 w2, w1 ∈ write_split_files_plan m base (some c) →
         w2 ∈ write_split_files_plan m base (some c) → w1.isUnit = true →
         w2.isUnit = true → w1.path ≠ w2.path → n ∈ w1.members → n ∈ w2.members →
         False))) :=
  ⟨fun m base h1 h2 h3 h4 h5 => split_completeness_default_aux m base h1 h2 h3 h4 h5,
   fun m base c h1 h2 h3 h4 h5 => split_completeness_config_aux m base c h1 h2 h3 h4 h5⟩

/-- Concrete module with a class and a function sharing the name `A`. -/
def exMdup : PyModule :=
  { body := [.classDef "A" none 1 (some 2) (.node []),
      .funcDef "A" none 3 (some 4) (.node [])],
    lines := ["class A:", "    pass", "def A():", "    pass"] }

/-- Counterexample to C1 as stated: when a top-level class and a
top-level function share a name, that name is embedded in two different
partition-unit files (the class unit and the shared functions unit). -/
theorem split_completeness_cex :
    (∃ w1 ∈ write_split_files_plan exMdup "sample" none,
      ∃ w2 ∈ write_split_files_plan exMdup "sample" none,
        w1.isUnit = true ∧ w2.isUnit = true ∧ w1.path ≠ w2.path ∧
        "A" ∈ w1.members ∧ "A" ∈ w2.members) ∧
    "A" ∈ final_members (write_split_files_plan exMdup "sample" none)
      (OutPath.inFolder "A") ∧
    "A" ∈ final_members (write_split_files_plan exMdup "sample" none)
      (OutPath.inFolder "functions") := by
  decide

/-- Concrete module with two classes and a function, all distinct. -/
def exMgood : PyModule :=
  { body := [.classDef "A" none 1 (some 2) (.node []),
      .classDef "B" none 3 (some 4) (.node []),
      .funcDef "f" none 5 (some 6) (.node [])],
    lines := ["class A:", "    pass", "class B:", "    pass", "def f():", "    pass"] }

/-- Witness for the amended C1 in both modes at concrete modules. -/
theorem split_completeness_no_duplication_witness :
    (∀ n, (∃ p, n ∈ final_members (write_split_files_plan exMgood "pkg" none) p) ↔
      (n ∈ classNamesOf exMgood ∨ n ∈ functionNamesOf exMgood)) ∧
    (∀ n, (∃ p, n ∈ final_members (write_split_files_plan exM3 "pkg" (some exCfg)) p) ↔
      (n ∈ classNamesOf exM3 ∨ n ∈ functionNamesOf exM3)) := by
  constructor
  · exact (split_completeness_no_duplication.1 exMgood "pkg" (by decide) (by decide)
      (by decide) (by decide) (by decide)).1
  · refine (split_completeness_no_duplication.2 exM3 "pkg" exCfg (by decide) (by decide)
      ?_ (by decide) (by decide)).1
    intro x mdl1 mdl2 h1 h2 _ _
    simp only [exCfg, List.mem_singleton] at h1 h2
    rw [h1, h2]
